import Mathlib

/-!
The FluidSynth back end of the MIDI synthesizer: a shallow embedding of
`Alc/midi/fluidsynth.c`.

* The synthesis engine (FluidSynth) is external.  Every `fluid_*` call the file makes is
  recorded, in program order, in a log of `EngineCall` values.  Where the program reads
  an answer of the engine (the `handled` flag of a sysex, the voice of an allocation
  request, the handle of a load) the answer is an input of the model.
* C arrays with their element count are lists.  `ALuint64` time stamps are naturals below
  `2 ^ 64`, and the one subtraction on them wraps modulo `2 ^ 64`.
* The `double` sample clock (`SamplesSinceLast`, `SamplesToNext`, `SamplesPerTick`) is
  taken in exact arithmetic, as rationals.
* Memory allocation can fail; the outcome of every `malloc`/`calloc` the file tests is an
  input of the model.
-/

namespace FluidSynth

/-! ## Constants -/

/-- MIDI events: `#define SYSEX_EVENT (0xF0)`. -/
def SYSEX_EVENT : Nat := 0xF0

/-- MIDI controllers: `#define CTRL_BANKSELECT_MSB (0)`. -/
def CTRL_BANKSELECT_MSB : Nat := 0

/-- MIDI controllers: `#define CTRL_BANKSELECT_LSB (32)`. -/
def CTRL_BANKSELECT_LSB : Nat := 32

/-- Modelled from the spec: the event code `AL_NOTEOFF_SOFT` (AL/alext.h is not among the
sources); the channel voice events the spec lists carry a type/channel nibble pair, the
type nibble being the MIDI status. -/
def AL_NOTEOFF_SOFT : Nat := 0x80

/-- Modelled from the spec: the event code `AL_NOTEON_SOFT` (AL/alext.h is not among the
sources), the MIDI note-on status. -/
def AL_NOTEON_SOFT : Nat := 0x90

/-- Modelled from the spec: the event code `AL_AFTERTOUCH_SOFT` (AL/alext.h is not among
the sources), the MIDI key aftertouch status. -/
def AL_AFTERTOUCH_SOFT : Nat := 0xA0

/-- Modelled from the spec: the event code `AL_CONTROLLERCHANGE_SOFT` (AL/alext.h is not
among the sources), the MIDI controller change status. -/
def AL_CONTROLLERCHANGE_SOFT : Nat := 0xB0

/-- Modelled from the spec: the event code `AL_PROGRAMCHANGE_SOFT` (AL/alext.h is not
among the sources), the MIDI program change status. -/
def AL_PROGRAMCHANGE_SOFT : Nat := 0xC0

/-- Modelled from the spec: the event code `AL_CHANNELPRESSURE_SOFT` (AL/alext.h is not
among the sources), the MIDI channel pressure status. -/
def AL_CHANNELPRESSURE_SOFT : Nat := 0xD0

/-- Modelled from the spec: the event code `AL_PITCHBEND_SOFT` (AL/alext.h is not among
the sources), the MIDI pitch bend status. -/
def AL_PITCHBEND_SOFT : Nat := 0xE0

/-- The largest `ALuint64`, which the scheduler reads as "no event pending". -/
def UINT64_MAX : Nat := 2 ^ 64 - 1

/-- Modelled from the spec: the synthesizer states of `MidiSynth.State` (AL/al.h is not
among the sources): uninitialized, playing, paused, stopped. -/
inductive ALstate where
  | AL_INITIAL
  | AL_PLAYING
  | AL_PAUSED
  | AL_STOPPED
  deriving DecidableEq

/-- The engine's `FLUID_OK`. -/
def FLUID_OK : Int := 0

/-- The engine's `FLUID_FAILED`. -/
def FLUID_FAILED : Int := -1

/-- The `static const ALbyte gm2_on[]` of `FSynth_processQueue`. -/
def gm2_on : List Nat := [0x7E, 0x7F, 0x09, 0x03]

/-- The `static const ALbyte gm2_off[]` of `FSynth_processQueue`. -/
def gm2_off : List Nat := [0x7E, 0x7F, 0x09, 0x02]

/-! ## The engine log -/

/-- The two channel types `fluid_synth_set_channel_type` is called with. -/
inductive ChannelType where
  | CHANNEL_TYPE_MELODIC
  | CHANNEL_TYPE_DRUM
  deriving DecidableEq

/-- One modulator record (`fluid_mod_t`), an engine type the adapter only stores and
passes on; it is identified by a number. -/
abbrev fluid_mod_t := Nat

/-- One call into the synthesis engine, with the arguments the program passes.
`alloc_voice` names the sample adapter by its index in the preset adapter's `Samples`
array, `gen_set`, `add_mod` and `start_voice` name the voice the engine returned;
`write_float` carries the frame count and the offset into the two output channels. -/
inductive EngineCall where
  | sysex (data : List Nat)
  | noteoff (chan key : Nat)
  | noteon (chan key vel : Nat)
  | set_channel_type (chan : Nat) (type : ChannelType)
  | bank_select (chan bank : Nat)
  | cc (chan ctrl val : Nat)
  | program_change (chan prog : Nat)
  | channel_pressure (chan val : Nat)
  | pitch_bend (chan val : Nat)
  | write_float (len offset : Nat)
  | sfload (name : List Char) (reset : Int)
  | sfunload (id : Int) (reset : Int)
  | alloc_voice (sample : Nat) (chan key vel : Int)
  | gen_set (voice : Nat) (gen : Nat) (val : Int)
  | add_mod (voice : Nat) (mod : fluid_mod_t)
  | start_voice (voice : Nat)
  deriving DecidableEq

/-! ## The host's data (declared outside this file) -/

/-- One queued MIDI event (`MidiEvent` of evtqueue.h): the time stamp in ticks, the
event code (type nibble and channel nibble, or `SYSEX_EVENT`), and the payload union:
`val0`, `val1` are `param.val[0]`, `param.val[1]`; `sysex` is the byte buffer
`param.sysex.data` of `param.sysex.size` bytes.  The program reads `sysex` only when
`event` is `SYSEX_EVENT` and the two values only otherwise. -/
structure MidiEvent where
  time : Nat
  event : Nat
  val0 : Nat
  val1 : Nat
  sysex : List Nat
  deriving DecidableEq

/-- The host event queue (`EvtQueue` of evtqueue.h): the `events` array, whose length is
the field `size`, and the cursor `pos`. -/
structure EvtQueue where
  events : List MidiEvent
  pos : Nat
  deriving DecidableEq

/-- The field `size` of the queue. -/
def EvtQueue.size (q : EvtQueue) : Nat := q.events.length

/-- The envelope block of a zone (`ALfontsound.ModEnv`, `ALfontsound.VolEnv`). -/
structure ALenvelope where
  DelayTime : Int
  AttackTime : Int
  HoldTime : Int
  DecayTime : Int
  SustainVol : Int
  ReleaseTime : Int
  KeyToHoldTime : Int
  KeyToDecayTime : Int
  deriving DecidableEq

/-- One zone of a preset (`ALfontsound` of alMidi.h), with the fields this file reads;
`Modulators` is the zone's ordered list of modulator records, which the spec lists and
this file never reads. -/
structure ALfontsound where
  MinKey : Int
  MaxKey : Int
  MinVelocity : Int
  MaxVelocity : Int
  ModLfoToPitch : Int
  VibratoLfoToPitch : Int
  ModEnvToPitch : Int
  FilterCutoff : Int
  FilterQ : Int
  ModLfoToFilterCutoff : Int
  ModEnvToFilterCutoff : Int
  ModEnv : ALenvelope
  VolEnv : ALenvelope
  CoarseTuning : Int
  FineTuning : Int
  LoopMode : Int
  TuningScale : Int
  Start : Int
  End : Int
  LoopStart : Int
  LoopEnd : Int
  SampleRate : Int
  PitchKey : Int
  PitchCorrection : Int
  SampleType : Int
  Modulators : List Nat

/-- One preset of a soundfont (`ALsfpreset`): its numbers and its zones, `Sounds` with
`NumSounds` their count. -/
structure ALsfpreset where
  Preset : Int
  Bank : Int
  Sounds : List ALfontsound

/-- One soundfont of the host catalog (`ALsoundfont`): `Presets` with `NumPresets` their
count. -/
structure ALsoundfont where
  Presets : List ALsfpreset

/-- The base object (`MidiSynth` of midi/base.h) with the fields this file reads and
writes.  `Soundfonts` with `NumSoundfonts` its count is the selected catalog. -/
structure MidiSynth where
  State : ALstate
  EventQueue : EvtQueue
  LastEvtTime : Nat
  NextEvtTime : Nat
  SamplesSinceLast : ℚ
  SamplesToNext : ℚ
  SamplesPerTick : ℚ
  Soundfonts : List ALsoundfont

/-- The field `NumSoundfonts` of the base object. -/
def MidiSynth.NumSoundfonts (m : MidiSynth) : Nat := m.Soundfonts.length

/-- Modelled from the spec: `MidiSynth_getNextEvtTime` (Alc/midi/base.c is not among the
sources) peeks the time stamp of the next pending event of the host queue, the sentinel
`UINT64_MAX` standing for "none pending". -/
def MidiSynth_getNextEvtTime (m : MidiSynth) : Nat :=
  match m.EventQueue.events.drop m.EventQueue.pos with
  | [] => UINT64_MAX
  | evt :: _ => evt.time

/-! ## The synthesizer object -/

/-- The object `FSynth`.  `FontIDs` is the handle array (an entry that was never written
is `none`), `NumFontIDs` the count published with it. -/
structure FSynth extends MidiSynth where
  FontIDs : List (Option Int)
  NumFontIDs : Nat
  ForceGM2BankSelect : Bool

/-- The body of the `while` loop of `FSynth_processQueue` for the event `evt`, apart from
`queue->pos++`: the new value of `ForceGM2BankSelect` and the engine calls made.
`handled` is what the engine stores in the `handled` flag of `fluid_synth_sysex`. -/
def dispatchEvent (handled : Bool) (latch : Bool) (evt : MidiEvent) :
    Bool × List EngineCall :=
  if evt.event = SYSEX_EVENT then
    let calls := [EngineCall.sysex evt.sysex]
    if !handled && decide (evt.sysex.length ≥ gm2_on.length) then
      if evt.sysex.take gm2_on.length = gm2_on then (true, calls)
      else if evt.sysex.take gm2_off.length = gm2_off then (false, calls)
      else (latch, calls)
    else (latch, calls)
  else
    let kind := evt.event &&& 0xF0
    let chan := evt.event &&& 0x0F
    if kind = AL_NOTEOFF_SOFT then
      (latch, [EngineCall.noteoff chan evt.val0])
    else if kind = AL_NOTEON_SOFT then
      (latch, [EngineCall.noteon chan evt.val0 evt.val1])
    else if kind = AL_AFTERTOUCH_SOFT then
      (latch, [])
    else if kind = AL_CONTROLLERCHANGE_SOFT then
      if latch && decide (evt.val0 = CTRL_BANKSELECT_MSB) then
        if evt.val1 = 120 ∧ (chan = 9 ∨ chan = 10) then
          (latch, [EngineCall.set_channel_type chan ChannelType.CHANNEL_TYPE_DRUM])
        else if evt.val1 = 121 then
          (latch, [EngineCall.set_channel_type chan ChannelType.CHANNEL_TYPE_MELODIC])
        else (latch, [])
      else if latch && decide (evt.val0 = CTRL_BANKSELECT_LSB) then
        (latch, [EngineCall.bank_select chan evt.val1])
      else
        (latch, [EngineCall.cc chan evt.val0 evt.val1])
    else if kind = AL_PROGRAMCHANGE_SOFT then
      (latch, [EngineCall.program_change chan evt.val0])
    else if kind = AL_CHANNELPRESSURE_SOFT then
      (latch, [EngineCall.channel_pressure chan evt.val0])
    else if kind = AL_PITCHBEND_SOFT then
      (latch, [EngineCall.pitch_bend chan ((evt.val0 &&& 0x7F) ||| ((evt.val1 &&& 0x7F) <<< 7))])
    else (latch, [])

/-- The `while` loop of `FSynth_processQueue`.  The list argument is the part of the
`events` array from the cursor on, so that `queue->pos < queue->size` is "the list is
not empty" and `queue->events[queue->pos]` is its head.  `handled i` is the engine's
`handled` answer for the sysex at queue index `i`. -/
def processQueueLoop (handled : Nat → Bool) (time : Nat) :
    List MidiEvent → FSynth → List EngineCall → FSynth × List EngineCall
  | [], self, log => (self, log)
  | evt :: rest, self, log =>
    if evt.time ≤ time then
      let r := dispatchEvent (handled self.EventQueue.pos) self.ForceGM2BankSelect evt
      processQueueLoop handled time rest
        { self with
          ForceGM2BankSelect := r.1
          EventQueue := { self.EventQueue with pos := self.EventQueue.pos + 1 } }
        (log ++ r.2)
    else (self, log)

/-- The function `FSynth_processQueue(self, time)`: the state afterwards and the engine
log extended by the calls made. -/
def FSynth_processQueue (handled : Nat → Bool) (self : FSynth) (log : List EngineCall)
    (time : Nat) : FSynth × List EngineCall :=
  processQueueLoop handled time (self.EventQueue.events.drop self.EventQueue.pos) self log

/-- The difference `a - b` of two `ALuint64`. -/
def sub64 (a b : Nat) : Nat := (a + 2 ^ 64 - b) % 2 ^ 64

/-- The scheduling step that `FSynth_stop` (lines 519-526) and `FSynth_process` (lines
665-672) share, for the pending time stamp `time`: the clock is moved to `time`, the due
events are dispatched and the countdown to the next event is set up. -/
def scheduleStep (handled : Nat → Bool) (self : FSynth) (log : List EngineCall)
    (time : Nat) : FSynth × List EngineCall :=
  let since := self.SamplesSinceLast - (sub64 time self.LastEvtTime : ℚ) * self.SamplesPerTick
  let self1 : FSynth := { self with SamplesSinceLast := max since 0, LastEvtTime := time }
  let r := FSynth_processQueue handled self1 log time
  let next := MidiSynth_getNextEvtTime r.1.toMidiSynth
  let self2 : FSynth := { r.1 with NextEvtTime := next }
  if next ≠ UINT64_MAX then
    ({ self2 with
       SamplesToNext :=
         self2.SamplesToNext + (sub64 next self2.LastEvtTime : ℚ) * self2.SamplesPerTick },
     r.2)
  else (self2, r.2)

/-- The function `FSynth_Construct`, given the base object that `MidiSynth_Construct`
(Alc/midi/base.c, not among the sources) has set up. -/
def FSynth_Construct (base : MidiSynth) : FSynth :=
  { base with FontIDs := [], NumFontIDs := 0, ForceGM2BankSelect := false }

/-! ## The instrument adapter -/

/-- The engine's sample object (`fluid_sample_t`) with the fields `FSample_Construct`
fills from the zone; the name, the data pointer, the noise-floor fields, `notify` and
`userdata` carry no information used here. -/
structure fluid_sample_t where
  start : Int
  end_ : Int
  loopstart : Int
  loopend : Int
  samplerate : Int
  origpitch : Int
  pitchadj : Int
  sampletype : Int
  valid : Int
  refcount : Int

/-- The sample adapter `FSample`: the engine's sample object, the zone `Sound` it was
built from, and the modulator array `Mods` with `NumMods` its count. -/
structure FSample extends fluid_sample_t where
  Sound : ALfontsound
  Mods : List fluid_mod_t

/-- The function `FSample_Construct(self, sound, sfont)`. -/
def FSample_Construct (sound : ALfontsound) : FSample :=
  { start := sound.Start
    end_ := sound.End
    loopstart := sound.LoopStart
    loopend := sound.LoopEnd
    samplerate := sound.SampleRate
    origpitch := sound.PitchKey
    pitchadj := sound.PitchCorrection
    sampletype := sound.SampleType
    valid := 1
    refcount := 0
    Sound := sound
    Mods := [] }

/-- The engine's preset object (`fluid_preset_t`): `data` is the address of the owning
`FPreset`, given as its index in the catalog adapter's `Presets` array; `isFreeSet` tells
whether the `free` callback is set (`false` is `NULL`), `isNotifySet` the same for
`notify`.  The slots `get_name`, `get_banknum`, `get_num` and `noteon` always hold the
`FPreset_*` functions of this file. -/
structure fluid_preset_t where
  data : Nat
  isFreeSet : Bool
  isNotifySet : Bool
  deriving DecidableEq

/-- The preset adapter `FPreset`: `Samples` with `NumSamples` its count. -/
structure FPreset extends fluid_preset_t where
  Preset : Int
  Bank : Int
  Samples : List FSample

/-- The function `FPreset_Construct(self, preset, parent, sfont)`; `addr` is the address
`self`, and `alloc` tells whether the `calloc` of the sample array succeeded. -/
def FPreset_Construct (alloc : Bool) (addr : Nat) (preset : ALsfpreset) : FPreset :=
  { data := addr
    isFreeSet := false
    isNotifySet := false
    Preset := preset.Preset
    Bank := preset.Bank
    Samples := if alloc then preset.Sounds.map FSample_Construct else [] }

/-- The range test of `FPreset_noteOn`: the zone's key and velocity ranges contain
`(key, vel)`. -/
def inRange (sound : ALfontsound) (key vel : Int) : Bool :=
  decide (key ≥ sound.MinKey) && decide (key ≤ sound.MaxKey) &&
    decide (vel ≥ sound.MinVelocity) && decide (vel ≤ sound.MaxVelocity)

/-- The 27 `fluid_voice_gen_set` calls of `FPreset_noteOn`, in program order: generator
id and value. -/
def genValues (sound : ALfontsound) : List (Nat × Int) :=
  [ (5, sound.ModLfoToPitch),
    (6, sound.VibratoLfoToPitch),
    (7, sound.ModEnvToPitch),
    (8, sound.FilterCutoff),
    (9, sound.FilterQ),
    (10, sound.ModLfoToFilterCutoff),
    (11, sound.ModEnvToFilterCutoff),
    (25, sound.ModEnv.DelayTime),
    (26, sound.ModEnv.AttackTime),
    (27, sound.ModEnv.HoldTime),
    (28, sound.ModEnv.DecayTime),
    (29, sound.ModEnv.SustainVol),
    (30, sound.ModEnv.ReleaseTime),
    (31, sound.ModEnv.KeyToHoldTime),
    (32, sound.ModEnv.KeyToDecayTime),
    (33, sound.VolEnv.DelayTime),
    (34, sound.VolEnv.AttackTime),
    (35, sound.VolEnv.HoldTime),
    (36, sound.VolEnv.DecayTime),
    (37, sound.VolEnv.SustainVol),
    (38, sound.VolEnv.ReleaseTime),
    (39, sound.VolEnv.KeyToHoldTime),
    (40, sound.VolEnv.KeyToDecayTime),
    (51, sound.CoarseTuning),
    (52, sound.FineTuning),
    (54, sound.LoopMode),
    (56, sound.TuningScale) ]

/-- The engine calls of `FPreset_noteOn` on the voice `voice` it was given for the sample
adapter `sample`: the generator values, the modulators, the start. -/
def voiceSetup (sample : FSample) (voice : Nat) : List EngineCall :=
  (genValues sample.Sound).map (fun g => EngineCall.gen_set voice g.1 g.2) ++
    sample.Mods.map (fun m => EngineCall.add_mod voice m) ++
    [EngineCall.start_voice voice]

/-- The `for` loop of `FPreset_noteOn` over the samples from index `i` on.  `voices n` is
the engine's answer to the allocation request number `n` of this note-on (`none` is
`NULL`); `nreq` counts the requests made so far. -/
def noteOnLoop (voices : Nat → Option Nat) (chan key vel : Int) :
    List FSample → Nat → Nat → List EngineCall → Int × List EngineCall
  | [], _, _, log => (FLUID_OK, log)
  | sample :: rest, i, nreq, log =>
    if !(inRange sample.Sound key vel) then
      noteOnLoop voices chan key vel rest (i + 1) nreq log
    else
      match voices nreq with
      | none => (FLUID_FAILED, log ++ [EngineCall.alloc_voice i chan key vel])
      | some voice =>
        noteOnLoop voices chan key vel rest (i + 1) (nreq + 1)
          (log ++ [EngineCall.alloc_voice i chan key vel] ++ voiceSetup sample voice)

/-- The function `FPreset_noteOn(preset, synth, channel, key, vel)`: the return value and
the engine log extended by the calls made. -/
def FPreset_noteOn (voices : Nat → Option Nat) (self : FPreset) (chan key vel : Int)
    (log : List EngineCall) : Int × List EngineCall :=
  noteOnLoop voices chan key vel self.Samples 0 0 log

/-- The catalog adapter `FSfont`: `id` of the engine's `fluid_sfont_t`, `Presets` with
`NumPresets` its count, and the iteration cursor. -/
structure FSfont where
  id : Int
  Presets : List FPreset
  CurrentPos : Nat

/-- The field `NumPresets` of the catalog adapter. -/
def FSfont.NumPresets (self : FSfont) : Nat := self.Presets.length

/-- The construction loop of `FSfont_Construct`: `FPreset_Construct` on
`&self->Presets[i]` for the presets from index `i` on. -/
def constructPresets (allocSamples : Nat → Bool) : Nat → List ALsfpreset → List FPreset
  | _, [] => []
  | i, preset :: rest =>
    FPreset_Construct (allocSamples i) i preset :: constructPresets allocSamples (i + 1) rest

/-- The function `FSfont_Construct(self, sfont)`; `allocPresets` tells whether the
`calloc` of the preset array succeeded, `allocSamples i` the same for the sample array of
preset `i`. -/
def FSfont_Construct (allocPresets : Bool) (allocSamples : Nat → Bool)
    (sfont : ALsoundfont) : FSfont :=
  { id := FLUID_FAILED
    Presets := if allocPresets then constructPresets allocSamples 0 sfont.Presets else []
    CurrentPos := 0 }

/-- The function `FPreset_getPreset(preset)`: the number of the `FPreset` that
`preset->data` points to in the adapter `sf`. -/
def FPreset_getPreset (sf : FSfont) (preset : fluid_preset_t) : Option Int :=
  (sf.Presets[preset.data]?).map (fun p => p.Preset)

/-- The function `FPreset_getBank(preset)`: the bank of the `FPreset` that `preset->data`
points to in the adapter `sf`. -/
def FPreset_getBank (sf : FSfont) (preset : fluid_preset_t) : Option Int :=
  (sf.Presets[preset.data]?).map (fun p => p.Bank)

/-- The cast `(int)x` of an `unsigned int` to `int`, as two's complement. -/
def toInt32 (x : Nat) : Int :=
  if x % 2 ^ 32 < 2 ^ 31 then (x % 2 ^ 32 : Nat) else ((x % 2 ^ 32 : Nat) : Int) - 2 ^ 32

/-- The loop of `FSfont_getPreset` over the presets. -/
def getPresetLoop (bank prenum : Nat) : List FPreset → Option fluid_preset_t
  | [] => none
  | preset :: rest =>
    if preset.Bank = toInt32 bank ∧ preset.Preset = toInt32 prenum then
      some preset.tofluid_preset_t
    else getPresetLoop bank prenum rest

/-- The function `FSfont_getPreset(sfont, bank, prenum)`; `none` is `NULL`. -/
def FSfont_getPreset (self : FSfont) (bank prenum : Nat) : Option fluid_preset_t :=
  getPresetLoop bank prenum self.Presets

/-- The function `FSfont_iterStart(sfont)`. -/
def FSfont_iterStart (self : FSfont) : FSfont :=
  { self with CurrentPos := 0 }

/-- The function `FSfont_iterNext(sfont, preset)`: the return value, the adapter and the
caller's preset object afterwards.  The presets from the cursor on stand for the test
`CurrentPos >= NumPresets` and the access `Presets[CurrentPos]`. -/
def FSfont_iterNext (self : FSfont) (preset : fluid_preset_t) :
    Int × FSfont × fluid_preset_t :=
  match self.Presets.drop self.CurrentPos with
  | [] => (0, self, preset)
  | p :: _ =>
    (1, { self with CurrentPos := self.CurrentPos + 1 },
      { p.tofluid_preset_t with isFreeSet := false })

/-! ## The soundfont loader callback -/

/-- The largest `int`. -/
def INT_MAX : Int := 2147483647

/-- The smallest `int`. -/
def INT_MIN : Int := -2147483648

/-- The C library's `isspace` in the "C" locale: space, and the controls 9..13. -/
def isspace (c : Char) : Bool :=
  decide (c.toNat = 32) || (decide (9 ≤ c.toNat) && decide (c.toNat ≤ 13))

/-- The C library's `isdigit`. -/
def isdigit (c : Char) : Bool :=
  decide (48 ≤ c.toNat) && decide (c.toNat ≤ 57)

/-- Input white space skipped, as `sscanf` does for a white-space directive and before a
`%d` conversion. -/
def skipSpace : List Char → List Char
  | [] => []
  | c :: rest => if isspace c then skipSpace rest else c :: rest

/-- The ordinary characters `fmt` of a `sscanf` format matched against the input: the
rest of the input, or `none` when the input differs or ends early. -/
def matchChars : List Char → List Char → Option (List Char)
  | [], input => some input
  | _ :: _, [] => none
  | f :: fmt, c :: input => if f = c then matchChars fmt input else none

/-- The value of the longest run of decimal digits at the head of the input, continuing
the value `acc`. -/
def scanDigits : List Char → Nat → Nat
  | [], acc => acc
  | c :: rest, acc => if isdigit c then scanDigits rest (acc * 10 + (c.toNat - 48)) else acc

/-- The subject sequence of `%d` at the head of the input (white space already skipped):
an optional sign and at least one decimal digit; `none` when there is no such sequence. -/
def scanDecimal : List Char → Option Int
  | [] => none
  | c :: rest =>
    if c.toNat = 45 then
      match rest with
      | [] => none
      | d :: _ => if isdigit d then some (-(scanDigits rest 0 : Int)) else none
    else if c.toNat = 43 then
      match rest with
      | [] => none
      | d :: _ => if isdigit d then some (scanDigits rest 0 : Int) else none
    else if isdigit c then some (scanDigits (c :: rest) 0 : Int)
    else none

/-- What `sscanf(filename, "_al_internal %d", &idx)` does: `failed` when it does not
return 1, `value idx` when it returns 1 and stores `idx`, `unrepresentable` when the
integer read does not fit an `int` (the C standard leaves the behaviour undefined). -/
inductive ScanResult where
  | failed
  | value (idx : Int)
  | unrepresentable
  deriving DecidableEq

/-- The call `sscanf(filename, "_al_internal %d", &idx)` of `FSynth_loadSfont`, after the
C standard: the marker must match character by character, the blank of the format skips
any white space (none included), `%d` skips white space and converts an optionally signed
decimal integer; what follows the integer is not looked at. -/
def sscanf_al_internal (filename : List Char) : ScanResult :=
  match matchChars "_al_internal".toList filename with
  | none => ScanResult.failed
  | some rest =>
    match scanDecimal (skipSpace (skipSpace rest)) with
    | none => ScanResult.failed
    | some v =>
      if INT_MIN ≤ v ∧ v ≤ INT_MAX then ScanResult.value v else ScanResult.unrepresentable

/-- The result of `FSynth_loadSfont`: `NULL`, a pointer to a new catalog adapter, or
`undefined` where the C standard gives the call no defined behaviour (an integer that
does not fit `int`, or the read of `Soundfonts[idx]` with a negative `idx`). -/
inductive LoadSfontResult where
  | NULL
  | adapter (sfont : FSfont)
  | undefined

/-- The function `FSynth_loadSfont(loader, filename)`; `filename` is `none` for a null
pointer.  `alloc` tells whether the `calloc` of the adapter succeeded, `allocPresets` and
`allocSamples` are the allocation outcomes inside `FSfont_Construct`. -/
def FSynth_loadSfont (self : FSynth) (filename : Option (List Char)) (alloc : Bool)
    (allocPresets : Bool) (allocSamples : Nat → Bool) : LoadSfontResult :=
  match filename with
  | none => LoadSfontResult.NULL
  | some name =>
    match sscanf_al_internal name with
    | ScanResult.failed => LoadSfontResult.NULL
    | ScanResult.unrepresentable => LoadSfontResult.undefined
    | ScanResult.value idx =>
      if idx ≥ (self.NumSoundfonts : Int) then LoadSfontResult.NULL
      else if !alloc then LoadSfontResult.NULL
      else if idx < 0 then LoadSfontResult.undefined
      else
        match self.Soundfonts[idx.toNat]? with
        | none => LoadSfontResult.undefined
        | some sfont =>
          LoadSfontResult.adapter (FSfont_Construct allocPresets allocSamples sfont)

/-! ## The handle registry -/

/-- Modelled from the spec: the result codes of the facade (AL/al.h is not among the
sources): success, invalid-value, out-of-memory, and the further codes the host's
selection policy may return. -/
inductive ALerror where
  | AL_NO_ERROR
  | AL_INVALID_NAME
  | AL_INVALID_ENUM
  | AL_INVALID_VALUE
  | AL_INVALID_OPERATION
  | AL_OUT_OF_MEMORY
  deriving DecidableEq

/-- The unload loop `for(i = 0;i < count;i++) fluid_synth_sfunload(Synth, fontid[i], 1)`
of `FSynth_loadSoundfont` and `FSynth_selectSoundfonts`: the log afterwards, or `none`
when the loop reads past the end of the array or reads an entry that was never written. -/
def unloadFonts : List (Option Int) → Nat → List EngineCall → Option (List EngineCall)
  | _, 0, log => some log
  | [], _ + 1, _ => none
  | none :: _, _ + 1, _ => none
  | some id :: rest, count + 1, log =>
    unloadFonts rest count (log ++ [EngineCall.sfunload id 1])

/-- The name `snprintf(name, sizeof(name), "_al_internal %d", i)` leaves in the buffer
`char name[16]`: at most 15 characters. -/
def internalName (i : Nat) : List Char :=
  ("_al_internal ".toList ++ (Nat.repr i).toList).take 15

/-- The load loop of `FSynth_selectSoundfonts` for `n` more soundfonts from index `i` on:
the array `fontid` and the log afterwards, or `none` when `fontid[i]` lies past the end of
the array.  `sfload i` is the engine's answer to the load number `i`. -/
def selectLoadLoop (sfload : Nat → Int) :
    Nat → Nat → List (Option Int) → List EngineCall →
      Option (List (Option Int) × List EngineCall)
  | 0, _, fontid, log => some (fontid, log)
  | n + 1, i, fontid, log =>
    if i < fontid.length then
      selectLoadLoop sfload n (i + 1) (fontid.set i (some (sfload i)))
        (log ++ [EngineCall.sfload (internalName i) 1])
    else none

/-- The function `FSynth_selectSoundfonts(self, device, count, ids)`: the result code, the
state and the log afterwards, or `none` where an array is accessed out of bounds or an
unwritten entry is read.  `MidiSynth_selectSoundfonts` (Alc/midi/base.c, not among the
sources), the host's selection policy, is a parameter; `mallocOk` tells whether the
`malloc` of the new handle array succeeded. -/
def FSynth_selectSoundfonts
    (MidiSynth_selectSoundfonts : MidiSynth → Nat → List Nat → ALerror × MidiSynth)
    (sfload : Nat → Int) (mallocOk : Bool) (self : FSynth) (count : Nat) (ids : List Nat)
    (log : List EngineCall) : Option (ALerror × FSynth × List EngineCall) :=
  let r := MidiSynth_selectSoundfonts self.toMidiSynth count ids
  let self1 : FSynth := { self with toMidiSynth := r.2 }
  if r.1 ≠ ALerror.AL_NO_ERROR then some (r.1, self1, log)
  else if mallocOk then
    match selectLoadLoop sfload self1.NumSoundfonts 0 (List.replicate count none) log with
    | none => none
    | some loaded =>
      match unloadFonts self1.FontIDs self1.NumFontIDs loaded.2 with
      | none => none
      | some log2 =>
        some (r.1, { self1 with FontIDs := loaded.1, NumFontIDs := count }, log2)
  else
    match unloadFonts self1.FontIDs self1.NumFontIDs log with
    | none => none
    | some log2 => some (r.1, { self1 with FontIDs := [], NumFontIDs := 0 }, log2)

/-- The function `FSynth_loadSoundfont(self, filename)`; `filename` is the name that
`MidiSynth_getFontName` (Alc/midi/base.c, not among the sources) resolved, `mallocOk`
tells whether the `malloc` of the new handle array succeeded, `sfload` is the engine's
answer to the load. -/
def FSynth_loadSoundfont (sfload : Int) (mallocOk : Bool) (self : FSynth)
    (filename : List Char) (log : List EngineCall) :
    Option (ALerror × FSynth × List EngineCall) :=
  if filename = [] then some (ALerror.AL_INVALID_VALUE, self, log)
  else if !mallocOk then some (ALerror.AL_OUT_OF_MEMORY, self, log)
  else if sfload = FLUID_FAILED then
    some (ALerror.AL_INVALID_VALUE, self, log ++ [EngineCall.sfload filename 1])
  else
    match unloadFonts self.FontIDs self.NumFontIDs (log ++ [EngineCall.sfload filename 1]) with
    | none => none
    | some log2 =>
      some (ALerror.AL_NO_ERROR, { self with FontIDs := [some sfload], NumFontIDs := 1 }, log2)

/-! ## Rendering -/

/-- Modelled from the spec: `fastf2u` (alu.h is not among the sources) gives the whole
frames of the countdown, `floor(SamplesToNext)`, as an `ALuint`. -/
def fastf2u (x : ℚ) : Nat := Int.toNat ⌊x⌋ % 2 ^ 32

/-- Modelled from the spec: `minu` (alMain.h is not among the sources) is the minimum of
two `ALuint`. -/
def minu (a b : Nat) : Nat := min a b

/-- The `while(total < SamplesToDo)` loop of `FSynth_process`, run for at most `fuel`
tests of its condition; `none` when the fuel does not suffice.  `total` stays at most
`SamplesToDo`, so the `ALuint` additions do not wrap. -/
def processLoop (handled : Nat → Bool) (SamplesToDo : Nat) :
    Nat → FSynth → Nat → List EngineCall → Option (FSynth × List EngineCall)
  | 0, _, _, _ => none
  | fuel + 1, self, total, log =>
    if ¬ total < SamplesToDo then some (self, log)
    else if self.SamplesToNext ≥ 1 then
      let todo := minu (SamplesToDo - total) (fastf2u self.SamplesToNext)
      processLoop handled SamplesToDo fuel
        { self with
          SamplesSinceLast := self.SamplesSinceLast + (todo : ℚ)
          SamplesToNext := self.SamplesToNext - (todo : ℚ) }
        (total + todo) (log ++ [EngineCall.write_float todo total])
    else if self.NextEvtTime = UINT64_MAX then
      some ({ self with
              SamplesSinceLast := self.SamplesSinceLast + ((SamplesToDo - total : Nat) : ℚ) },
            log ++ [EngineCall.write_float (SamplesToDo - total) total])
    else
      let r := scheduleStep handled self log self.NextEvtTime
      processLoop handled SamplesToDo fuel r.1 total r.2

/-- The function `FSynth_process(self, SamplesToDo, DryBuffer)`. -/
def FSynth_process (handled : Nat → Bool) (fuel : Nat) (self : FSynth) (SamplesToDo : Nat)
    (log : List EngineCall) : Option (FSynth × List EngineCall) :=
  if self.State = ALstate.AL_INITIAL then some (self, log)
  else if self.State ≠ ALstate.AL_PLAYING then
    some (self, log ++ [EngineCall.write_float SamplesToDo 0])
  else processLoop handled SamplesToDo fuel self 0 log

/-! ## Notions the statements use -/

/-- The state in which the latch is `latch` and the queue cursor is `pos`. -/
def FSynth.withCursor (self : FSynth) (latch : Bool) (pos : Nat) : FSynth :=
  { self with
    ForceGM2BankSelect := latch
    EventQueue := { self.EventQueue with pos := pos } }

/-- The events of `evts`, which sit at the queue indices `i`, `i + 1`, ..., dispatched one
after the other, each once: the latch afterwards and the engine calls made. -/
def dispatchSeq (handled : Nat → Bool) : List MidiEvent → Nat → Bool → Bool × List EngineCall
  | [], _, latch => (latch, [])
  | evt :: rest, i, latch =>
    let r := dispatchEvent (handled i) latch evt
    let r2 := dispatchSeq handled rest (i + 1) r.1
    (r2.1, r.2 ++ r2.2)

/-- The events of the queue from index `p` up to, not including, index `q`. -/
def EvtQueue.slice (queue : EvtQueue) (p q : Nat) : List MidiEvent :=
  (queue.events.drop p).take (q - p)

/-- A small base object for the examples: the given state, queue and sample clock, no
soundfont selected. -/
def exampleBase (state : ALstate) (events : List MidiEvent) (pos last next : Nat)
    (toNext perTick : ℚ) : MidiSynth :=
  { State := state
    EventQueue := { events := events, pos := pos }
    LastEvtTime := last
    NextEvtTime := next
    SamplesSinceLast := 0
    SamplesToNext := toNext
    SamplesPerTick := perTick
    Soundfonts := [] }

/-- The zones of a preset adapter whose key and velocity ranges contain `(key, vel)`, in
zone order, each with its index in the `Samples` array; `i` is the index of the first
sample of the list. -/
def matchingZones (key vel : Int) : List FSample → Nat → List (Nat × FSample)
  | [], _ => []
  | sample :: rest, i =>
    if inRange sample.Sound key vel then (i, sample) :: matchingZones key vel rest (i + 1)
    else matchingZones key vel rest (i + 1)

/-- The engine calls for a run of zones that are each given a voice: per zone the
allocation request, the generator values, the modulators and the start.  The zone that
makes request number `n` is given the voice `grant n`. -/
def servedCalls (chan key vel : Int) (grant : Nat → Nat) :
    List (Nat × FSample) → Nat → List EngineCall
  | [], _ => []
  | zone :: rest, n =>
    [EngineCall.alloc_voice zone.1 chan key vel] ++ voiceSetup zone.2 (grant n) ++
      servedCalls chan key vel grant rest (n + 1)

/-- Whether an engine call is an allocation request. -/
def EngineCall.isAllocVoice : EngineCall → Bool
  | EngineCall.alloc_voice _ _ _ _ => true
  | _ => false

/-- Whether an engine call starts a voice. -/
def EngineCall.isStartVoice : EngineCall → Bool
  | EngineCall.start_voice _ => true
  | _ => false

/-- The allocation requests in a list of engine calls. -/
def allocRequests (calls : List EngineCall) : List EngineCall :=
  calls.filter EngineCall.isAllocVoice

/-- The voice starts in a list of engine calls. -/
def voiceStarts (calls : List EngineCall) : List EngineCall :=
  calls.filter EngineCall.isStartVoice

/-- A zone for the examples: the given key and velocity ranges, and generator values
that differ from field to field. -/
def exampleZone (minKey maxKey minVel maxVel : Int) : ALfontsound :=
  { MinKey := minKey, MaxKey := maxKey, MinVelocity := minVel, MaxVelocity := maxVel
    ModLfoToPitch := 1, VibratoLfoToPitch := 2, ModEnvToPitch := 3, FilterCutoff := 4
    FilterQ := 5, ModLfoToFilterCutoff := 6, ModEnvToFilterCutoff := 7
    ModEnv := ⟨11, 12, 13, 14, 15, 16, 17, 18⟩
    VolEnv := ⟨21, 22, 23, 24, 25, 26, 27, 28⟩
    CoarseTuning := 31, FineTuning := 32, LoopMode := 33, TuningScale := 34
    Start := 0, End := 100, LoopStart := 10, LoopEnd := 90, SampleRate := 44100
    PitchKey := 60, PitchCorrection := 0, SampleType := 1
    Modulators := [] }

/-- A preset adapter for the examples: three zones, the middle one for the keys 0..10
only, built by `FPreset_Construct` at address 0. -/
def examplePreset : FPreset :=
  FPreset_Construct true 0
    { Preset := 5, Bank := 1
      Sounds := [exampleZone 0 127 0 127, exampleZone 0 10 0 127, exampleZone 0 127 0 127] }

/-- A preset adapter for the examples with one zone for the keys 0..59 and one for the
keys 60..127. -/
def exampleSplitPreset : FPreset :=
  FPreset_Construct true 0
    { Preset := 5, Bank := 1
      Sounds := [exampleZone 0 59 0 127, exampleZone 60 127 0 127] }

/-- The function `FSfont_iterNext` called `n` times in a row on the same caller's preset
object: the return value and the preset object of each call, in call order, and the
adapter and the preset object after the last call. -/
def iterNextTimes : Nat → FSfont → fluid_preset_t →
    List (Int × fluid_preset_t) × FSfont × fluid_preset_t
  | 0, sf, out => ([], sf, out)
  | n + 1, sf, out =>
    let r := FSfont_iterNext sf out
    let rs := iterNextTimes n r.2.1 r.2.2
    ((r.1, r.2.2) :: rs.1, rs.2)

/-- The render request for `k` frames at buffer offset `n`, as the loop of
`FSynth_process` makes it before an event: none when `k = 0`. -/
def renderCalls (k n : Nat) : List EngineCall :=
  if k = 0 then [] else [EngineCall.write_float k n]

/-- The time stamp at the head of the pending events `rest`, `UINT64_MAX` when there is
none. -/
def nextTime : List MidiEvent → Nat
  | [] => UINT64_MAX
  | r :: _ => r.time

/-- The countdown that the scheduling step adds after the event stamped `time` for the
pending events `rest`: the tick interval to the next event converted to samples, nothing
when no event is pending. -/
def nextInterval (time : Nat) (perTick : ℚ) : List MidiEvent → ℚ
  | [] => 0
  | r :: _ => if r.time ≠ UINT64_MAX then (sub64 r.time time : ℚ) * perTick else 0

/-- The exact sample offset, from the start of a render call, of the event stamped `t`:
the first pending event, stamped `t1`, is `toNext` samples away and a tick lasts
`perTick` samples. -/
def eventOffset (toNext perTick : ℚ) (t1 t : Nat) : ℚ :=
  toNext + ((t - t1 : Nat) : ℚ) * perTick

/-- The whole frames that lie before the exact sample offset of the event stamped `t`. -/
def eventFrame (toNext perTick : ℚ) (t1 t : Nat) : Nat :=
  Int.toNat ⌊eventOffset toNext perTick t1 t⌋

/-- A playing synthesizer for the examples whose three pending events are stamped
`2^64 - 3`, `2^64 - 2` and `2^64 - 1`, the last being the sentinel value; one sample per
tick, the first event due now. -/
def sentinelExample : FSynth :=
  FSynth_Construct (exampleBase ALstate.AL_PLAYING
    [⟨2 ^ 64 - 3, 0x90, 60, 100, []⟩, ⟨2 ^ 64 - 2, 0x80, 60, 0, []⟩,
      ⟨2 ^ 64 - 1, 0x90, 62, 100, []⟩]
    0 (2 ^ 64 - 3) (2 ^ 64 - 3) 0 1)

/-- A zone for the examples that covers every key and velocity and carries the two
modulator records 7 and 8. -/
def exampleZoneMods : ALfontsound :=
  { exampleZone 0 127 0 127 with Modulators := [7, 8] }

/-- Modelled from the spec: `MidiSynth_selectSoundfonts` (Alc/midi/base.c is not among the
sources) is the host's selection policy, of which the spec gives the contract only: the
facade "validates the requested set through the host's own selection policy first; on
acceptance, synthesizes one internal identifier string per catalog entry", and replacing
the set "leaves exactly len(new set) handles resident".  So an accepted selection of
`count` soundfonts leaves `count` entries in the catalog; this is that test on one answer
`r` of the policy. -/
def installsSelection (r : ALerror × MidiSynth) (count : Nat) : Bool :=
  decide (r.1 = ALerror.AL_NO_ERROR) && decide (r.2.NumSoundfonts = count)

theorem withCursor_self (self : FSynth) :
    self.withCursor self.ForceGM2BankSelect self.EventQueue.pos = self := rfl

theorem processQueueLoop_eq (handled : Nat → Bool) (time : Nat) (l : List MidiEvent) :
    ∀ (self : FSynth) (log : List EngineCall),
      processQueueLoop handled time l self log =
        (self.withCursor
            (dispatchSeq handled (l.takeWhile (fun evt => decide (evt.time ≤ time)))
              self.EventQueue.pos self.ForceGM2BankSelect).1
            (self.EventQueue.pos + (l.takeWhile (fun evt => decide (evt.time ≤ time))).length),
         log ++ (dispatchSeq handled (l.takeWhile (fun evt => decide (evt.time ≤ time)))
              self.EventQueue.pos self.ForceGM2BankSelect).2) := by
  induction l with
  | nil => intro self log; simp [processQueueLoop, dispatchSeq, FSynth.withCursor]
  | cons evt rest ih =>
    intro self log
    by_cases h : evt.time ≤ time
    · simp only [processQueueLoop, h, if_true, ih, List.takeWhile_cons, decide_True,
        dispatchSeq, List.length_cons, FSynth.withCursor, List.append_assoc]
      simp [Nat.add_assoc, Nat.add_comm 1]
    · simp [processQueueLoop, h, dispatchSeq, FSynth.withCursor]

theorem processQueue_step (handled : Nat → Bool) (self : FSynth) (log : List EngineCall)
    (time : Nat) (evt : MidiEvent)
    (hevt : self.EventQueue.events[self.EventQueue.pos]? = some evt)
    (hdue : evt.time ≤ time) :
    FSynth_processQueue handled self log time =
      FSynth_processQueue handled
        (self.withCursor
          (dispatchEvent (handled self.EventQueue.pos) self.ForceGM2BankSelect evt).1
          (self.EventQueue.pos + 1))
        (log ++ (dispatchEvent (handled self.EventQueue.pos) self.ForceGM2BankSelect evt).2)
        time := by
  obtain ⟨hlt, hget⟩ := List.getElem?_eq_some.1 hevt
  unfold FSynth_processQueue
  rw [List.drop_eq_getElem_cons hlt, hget]
  simp [processQueueLoop, hdue, FSynth.withCursor]

theorem take_length_takeWhile {α : Type} (f : α → Bool) (l : List α) :
    l.take (l.takeWhile f).length = l.takeWhile f := by
  induction l with
  | nil => simp
  | cons a t ih =>
    by_cases h : f a
    · simp [List.takeWhile_cons, h, ih]
    · simp [List.takeWhile_cons, h]

theorem length_takeWhile_le {α : Type} (f : α → Bool) (l : List α) :
    (l.takeWhile f).length ≤ l.length := by
  induction l with
  | nil => simp
  | cons a t ih =>
    by_cases h : f a
    · simp [List.takeWhile_cons, h, ih]
    · simp [List.takeWhile_cons, h]

theorem getElem?_length_takeWhile {α : Type} (f : α → Bool) (l : List α) (a : α)
    (h : l[(l.takeWhile f).length]? = some a) : f a = false := by
  induction l with
  | nil => simp at h
  | cons b t ih =>
    by_cases hb : f b
    · simp [List.takeWhile_cons, hb] at h
      exact ih h
    · simp [List.takeWhile_cons, hb] at h
      subst h; simpa using hb

theorem getElem?_lt_takeWhile {α : Type} (f : α → Bool) (l : List α) (j : Nat) (a : α)
    (hj : j < (l.takeWhile f).length) (h : l[j]? = some a) : f a = true := by
  induction l generalizing j with
  | nil => simp at h
  | cons b t ih =>
    by_cases hb : f b
    · simp [List.takeWhile_cons, hb] at hj
      cases j with
      | zero => simp at h; subst h; exact hb
      | succ j => simp at h; exact ih j (by omega) h
    · simp [List.takeWhile_cons, hb] at hj

theorem processQueue_eq (handled : Nat → Bool) (self : FSynth) (log : List EngineCall)
    (time : Nat) :
    ∃ k, k ≤ self.EventQueue.size - self.EventQueue.pos ∧
      (self.EventQueue.events.drop self.EventQueue.pos).takeWhile
          (fun evt => decide (evt.time ≤ time)) =
        self.EventQueue.slice self.EventQueue.pos (self.EventQueue.pos + k) ∧
      k = ((self.EventQueue.events.drop self.EventQueue.pos).takeWhile
          (fun evt => decide (evt.time ≤ time))).length ∧
      FSynth_processQueue handled self log time =
        (self.withCursor
            (dispatchSeq handled
              (self.EventQueue.slice self.EventQueue.pos (self.EventQueue.pos + k))
              self.EventQueue.pos self.ForceGM2BankSelect).1
            (self.EventQueue.pos + k),
         log ++ (dispatchSeq handled
              (self.EventQueue.slice self.EventQueue.pos (self.EventQueue.pos + k))
              self.EventQueue.pos self.ForceGM2BankSelect).2) := by
  refine ⟨_, ?_, ?_, rfl, ?_⟩
  · have := length_takeWhile_le (fun evt : MidiEvent => decide (evt.time ≤ time))
      (self.EventQueue.events.drop self.EventQueue.pos)
    simpa [EvtQueue.size] using this
  · simp [EvtQueue.slice, take_length_takeWhile]
  · unfold FSynth_processQueue
    rw [processQueueLoop_eq]
    simp [EvtQueue.slice, take_length_takeWhile]

/-- C7. For every event queue, every cursor position `p ≤ size` and every `time`,
`FSynth_processQueue(time)` leaves the cursor at the least index `q ≥ p` with `q = size`
or `events[q].time > time`; the events at the indices `p .. q-1` are dispatched once each
in queue order (the latch and the calls added to the log are those of dispatching that
slice, an event without engine call included), nothing else is added to the log, and
the queue's events, hence its size, and all other fields are unchanged. -/
theorem FSynth_processQueue_cursor (handled : Nat → Bool) (self : FSynth)
    (log : List EngineCall) (time : Nat)
    (hp : self.EventQueue.pos ≤ self.EventQueue.size) :
    self.EventQueue.pos ≤ (FSynth_processQueue handled self log time).1.EventQueue.pos ∧
    (FSynth_processQueue handled self log time).1.EventQueue.pos ≤ self.EventQueue.size ∧
    ((FSynth_processQueue handled self log time).1.EventQueue.pos = self.EventQueue.size ∨
      ∃ evt, self.EventQueue.events[
          (FSynth_processQueue handled self log time).1.EventQueue.pos]? = some evt ∧
        time < evt.time) ∧
    (∀ j evt, self.EventQueue.pos ≤ j →
      j < (FSynth_processQueue handled self log time).1.EventQueue.pos →
      self.EventQueue.events[j]? = some evt → evt.time ≤ time) ∧
    (FSynth_processQueue handled self log time).1.EventQueue.events =
      self.EventQueue.events ∧
    (FSynth_processQueue handled self log time).1 =
      self.withCursor
        (dispatchSeq handled
          (self.EventQueue.slice self.EventQueue.pos
            (FSynth_processQueue handled self log time).1.EventQueue.pos)
          self.EventQueue.pos self.ForceGM2BankSelect).1
        (FSynth_processQueue handled self log time).1.EventQueue.pos ∧
    (FSynth_processQueue handled self log time).2 =
      log ++ (dispatchSeq handled
          (self.EventQueue.slice self.EventQueue.pos
            (FSynth_processQueue handled self log time).1.EventQueue.pos)
          self.EventQueue.pos self.ForceGM2BankSelect).2 := by
  obtain ⟨k, hk, _, hlen, heq⟩ := processQueue_eq handled self log time
  have hq : (FSynth_processQueue handled self log time).1.EventQueue.pos
      = self.EventQueue.pos + k := by rw [heq]; rfl
  rw [hq]
  refine ⟨by omega, by omega, ?_, ?_, by rw [heq]; rfl, by rw [heq], by rw [heq]⟩
  · by_cases hend : self.EventQueue.pos + k = self.EventQueue.size
    · exact Or.inl hend
    · right
      have hlt : self.EventQueue.pos + k < self.EventQueue.events.length := by
        unfold EvtQueue.size at hend hk hp; omega
      refine ⟨self.EventQueue.events[self.EventQueue.pos + k], by simp [hlt], ?_⟩
      have h1 : (self.EventQueue.events.drop self.EventQueue.pos)[k]?
          = some self.EventQueue.events[self.EventQueue.pos + k] := by
        rw [List.getElem?_drop]; simp [hlt]
      have h2 : (self.EventQueue.events.drop self.EventQueue.pos)[
          ((self.EventQueue.events.drop self.EventQueue.pos).takeWhile
            (fun evt => decide (evt.time ≤ time))).length]?
          = some self.EventQueue.events[self.EventQueue.pos + k] := by
        rw [← hlen]; exact h1
      have := getElem?_length_takeWhile _ _ _ h2
      simpa using this
  · intro j evt hj1 hj2 hget
    have h1 : (self.EventQueue.events.drop self.EventQueue.pos)[j - self.EventQueue.pos]?
        = some evt := by
      rw [List.getElem?_drop]
      have : self.EventQueue.pos + (j - self.EventQueue.pos) = j := by omega
      rw [this]; exact hget
    have := getElem?_lt_takeWhile (fun evt : MidiEvent => decide (evt.time ≤ time)) _ _ _
      (by rw [← hlen]; omega) h1
    simpa using this

/-- C7, at a concrete queue: three events stamped 1, 5 and 9, the cursor at 0. -/
theorem FSynth_processQueue_cursor_witness :
    (FSynth_Construct (exampleBase ALstate.AL_PLAYING
        [⟨1, 0x90, 60, 100, []⟩, ⟨5, 0xA0, 60, 1, []⟩, ⟨9, 0x80, 60, 0, []⟩]
        0 0 1 0 1)).EventQueue.pos ≤
      (FSynth_Construct (exampleBase ALstate.AL_PLAYING
        [⟨1, 0x90, 60, 100, []⟩, ⟨5, 0xA0, 60, 1, []⟩, ⟨9, 0x80, 60, 0, []⟩]
        0 0 1 0 1)).EventQueue.size ∧
    (FSynth_processQueue (fun _ => false)
      (FSynth_Construct (exampleBase ALstate.AL_PLAYING
        [⟨1, 0x90, 60, 100, []⟩, ⟨5, 0xA0, 60, 1, []⟩, ⟨9, 0x80, 60, 0, []⟩]
        0 0 1 0 1)) [] 5).1.EventQueue.pos ≤
      (FSynth_Construct (exampleBase ALstate.AL_PLAYING
        [⟨1, 0x90, 60, 100, []⟩, ⟨5, 0xA0, 60, 1, []⟩, ⟨9, 0x80, 60, 0, []⟩]
        0 0 1 0 1)).EventQueue.size :=
  ⟨by decide,
   (FSynth_processQueue_cursor (fun _ => false)
      (FSynth_Construct (exampleBase ALstate.AL_PLAYING
        [⟨1, 0x90, 60, 100, []⟩, ⟨5, 0xA0, 60, 1, []⟩, ⟨9, 0x80, 60, 0, []⟩]
        0 0 1 0 1)) [] 5 (by decide)).2.1⟩

/-! ### System-exclusive events and the GM2 latch -/

/-- C8. A system-exclusive event that `FSynth_processQueue` finds due at the cursor is
dispatched like this: one `fluid_synth_sysex` call carrying the payload unchanged, the
cursor moved on by one, and the loop continues.  If the engine reports the payload
unhandled and its first 4 bytes are 7E 7F 09 03 the latch is then true; if unhandled and
the first 4 bytes are 7E 7F 09 02 it is false; if the engine handled it, or it is shorter
than 4 bytes, or it starts with any other 4 bytes, the latch is what it was. -/
theorem FSynth_processQueue_sysex (handled : Nat → Bool) (self : FSynth)
    (log : List EngineCall) (time : Nat) (evt : MidiEvent)
    (hevt : self.EventQueue.events[self.EventQueue.pos]? = some evt)
    (hdue : evt.time ≤ time) (hsys : evt.event = SYSEX_EVENT) :
    FSynth_processQueue handled self log time =
      FSynth_processQueue handled
        (self.withCursor
          (dispatchEvent (handled self.EventQueue.pos) self.ForceGM2BankSelect evt).1
          (self.EventQueue.pos + 1))
        (log ++ [EngineCall.sysex evt.sysex]) time ∧
    (handled self.EventQueue.pos = false → evt.sysex.take 4 = [0x7E, 0x7F, 0x09, 0x03] →
      (dispatchEvent (handled self.EventQueue.pos) self.ForceGM2BankSelect evt).1 = true) ∧
    (handled self.EventQueue.pos = false → evt.sysex.take 4 = [0x7E, 0x7F, 0x09, 0x02] →
      (dispatchEvent (handled self.EventQueue.pos) self.ForceGM2BankSelect evt).1 = false) ∧
    (handled self.EventQueue.pos = true ∨ evt.sysex.length < 4 ∨
        (evt.sysex.take 4 ≠ [0x7E, 0x7F, 0x09, 0x03] ∧
          evt.sysex.take 4 ≠ [0x7E, 0x7F, 0x09, 0x02]) →
      (dispatchEvent (handled self.EventQueue.pos) self.ForceGM2BankSelect evt).1 =
        self.ForceGM2BankSelect) := by
  have hcalls : (dispatchEvent (handled self.EventQueue.pos) self.ForceGM2BankSelect evt).2
      = [EngineCall.sysex evt.sysex] := by
    unfold dispatchEvent
    simp only [hsys, if_true]
    split_ifs <;> rfl
  refine ⟨?_, ?_, ?_, ?_⟩
  · rw [processQueue_step handled self log time evt hevt hdue, hcalls]
  · intro hh hon
    have hlen : 4 ≤ evt.sysex.length := by
      have := congrArg List.length hon
      simp at this; omega
    simp [dispatchEvent, hsys, hh, gm2_on, hon, hlen]
  · intro hh hoff
    have hlen : 4 ≤ evt.sysex.length := by
      have := congrArg List.length hoff
      simp at this; omega
    simp [dispatchEvent, hsys, hh, gm2_on, gm2_off, hoff, hlen]
  · rintro (hh | hshort | ⟨hon, hoff⟩)
    · simp [dispatchEvent, hsys, hh]
    · have : ¬ 4 ≤ evt.sysex.length := by omega
      simp [dispatchEvent, hsys, gm2_on, this]
    · unfold dispatchEvent
      simp only [hsys, if_true, gm2_on, gm2_off, List.length_cons, List.length_nil]
      split_ifs <;> rfl

/-- C8, at a concrete queue: the GM2-on handshake, unhandled by the engine, sets the
latch. -/
theorem FSynth_processQueue_sysex_witness :
    (dispatchEvent false false ⟨3, 0xF0, 0, 0, [0x7E, 0x7F, 0x09, 0x03, 0xF7]⟩).1 = true :=
  (FSynth_processQueue_sysex (fun _ => false)
    (FSynth_Construct (exampleBase ALstate.AL_PLAYING
      [⟨3, 0xF0, 0, 0, [0x7E, 0x7F, 0x09, 0x03, 0xF7]⟩] 0 0 3 0 1))
    [] 3 ⟨3, 0xF0, 0, 0, [0x7E, 0x7F, 0x09, 0x03, 0xF7]⟩ rfl (by decide) rfl).2.1 rfl rfl

/-- C9. A controller-change event with controller 0 (bank-select MSB) and value 120 on
channel index 9 or 10 that `FSynth_processQueue` finds due at the cursor while the GM2
latch is set produces exactly one engine call, `fluid_synth_set_channel_type` with that
channel and the drum type, and no `fluid_synth_cc` call; the cursor moves on by one and the
loop continues. -/
theorem FSynth_processQueue_gm2_drum (handled : Nat → Bool) (self : FSynth)
    (log : List EngineCall) (time : Nat) (evt : MidiEvent)
    (hevt : self.EventQueue.events[self.EventQueue.pos]? = some evt)
    (hdue : evt.time ≤ time)
    (hcc : evt.event &&& 0xF0 = AL_CONTROLLERCHANGE_SOFT)
    (hctrl : evt.val0 = CTRL_BANKSELECT_MSB) (hval : evt.val1 = 120)
    (hchan : evt.event &&& 0x0F = 9 ∨ evt.event &&& 0x0F = 10)
    (hlatch : self.ForceGM2BankSelect = true) :
    FSynth_processQueue handled self log time =
      FSynth_processQueue handled
        (self.withCursor true (self.EventQueue.pos + 1))
        (log ++ [EngineCall.set_channel_type (evt.event &&& 0x0F)
          ChannelType.CHANNEL_TYPE_DRUM]) time := by
  have hns : evt.event ≠ SYSEX_EVENT := by
    intro h; rw [h] at hcc; revert hcc; decide
  have hd : dispatchEvent (handled self.EventQueue.pos) self.ForceGM2BankSelect evt
      = (true, [EngineCall.set_channel_type (evt.event &&& 0x0F)
          ChannelType.CHANNEL_TYPE_DRUM]) := by
    unfold dispatchEvent
    simp only [hns, if_false, hcc, hlatch, hctrl, hval]
    simp [AL_CONTROLLERCHANGE_SOFT, AL_NOTEOFF_SOFT, AL_NOTEON_SOFT, AL_AFTERTOUCH_SOFT,
      hchan]
  rw [processQueue_step handled self log time evt hevt hdue, hd]

/-- C9, at a concrete queue: bank-select MSB 120 on channel index 9 with the latch set. -/
theorem FSynth_processQueue_gm2_drum_witness :
    FSynth_processQueue (fun _ => false)
        ((FSynth_Construct (exampleBase ALstate.AL_PLAYING
          [⟨0, 0xB9, 0, 120, []⟩] 0 0 0 0 1)).withCursor true 0) [] 0 =
      FSynth_processQueue (fun _ => false)
        ((FSynth_Construct (exampleBase ALstate.AL_PLAYING
          [⟨0, 0xB9, 0, 120, []⟩] 0 0 0 0 1)).withCursor true 1)
        [EngineCall.set_channel_type 9 ChannelType.CHANNEL_TYPE_DRUM] 0 :=
  FSynth_processQueue_gm2_drum (fun _ => false)
    ((FSynth_Construct (exampleBase ALstate.AL_PLAYING
      [⟨0, 0xB9, 0, 120, []⟩] 0 0 0 0 1)).withCursor true 0) [] 0
    ⟨0, 0xB9, 0, 120, []⟩ rfl (by decide) (by decide) rfl rfl (by decide) rfl

/-! ### Stopping -/

theorem noteOnLoop_granted (voices : Nat → Option Nat) (grant : Nat → Nat)
    (chan key vel : Int) (samples : List FSample) :
    ∀ (i nreq : Nat) (log : List EngineCall),
      (∀ j, j < (matchingZones key vel samples i).length →
        voices (nreq + j) = some (grant (nreq + j))) →
      noteOnLoop voices chan key vel samples i nreq log =
        (FLUID_OK, log ++ servedCalls chan key vel grant (matchingZones key vel samples i) nreq) := by
  induction samples with
  | nil => intro i nreq log _; simp [noteOnLoop, matchingZones, servedCalls]
  | cons sample rest ih =>
    intro i nreq log h
    by_cases hin : inRange sample.Sound key vel = true
    · have h0 := h 0 (by simp [matchingZones, hin])
      simp only [Nat.add_zero] at h0
      simp only [noteOnLoop, hin, matchingZones, if_true, Bool.not_true, h0, servedCalls]
      rw [if_neg (by simp)]
      rw [ih (i + 1) (nreq + 1) _ (fun j hj => by
        have := h (j + 1) (by simp [matchingZones, hin]; exact hj)
        have e : nreq + 1 + j = nreq + (j + 1) := by omega
        rw [e]; exact this)]
      simp [List.append_assoc]
    · simp only [Bool.not_eq_true] at hin
      simp only [noteOnLoop, hin, matchingZones, Bool.not_false, if_true]
      rw [if_neg (by simp)]
      exact ih (i + 1) nreq log (fun j hj => h j (by simpa [matchingZones, hin] using hj))

theorem noteOnLoop_refused (voices : Nat → Option Nat) (grant : Nat → Nat)
    (chan key vel : Int) (samples : List FSample) :
    ∀ (i nreq : Nat) (log : List EngineCall) (k : Nat) (zone : Nat × FSample),
      (matchingZones key vel samples i)[k]? = some zone →
      (∀ j, j < k → voices (nreq + j) = some (grant (nreq + j))) →
      voices (nreq + k) = none →
      noteOnLoop voices chan key vel samples i nreq log =
        (FLUID_FAILED,
          log ++ servedCalls chan key vel grant ((matchingZones key vel samples i).take k) nreq ++
            [EngineCall.alloc_voice zone.1 chan key vel]) := by
  induction samples with
  | nil => intro i nreq log k zone hz; simp [matchingZones] at hz
  | cons sample rest ih =>
    intro i nreq log k zone hz hg hf
    by_cases hin : inRange sample.Sound key vel = true
    · simp only [matchingZones, hin, if_true] at hz
      cases k with
      | zero =>
        simp only [List.getElem?_cons_zero, Option.some.injEq] at hz
        simp only [Nat.add_zero] at hf
        subst hz
        simp [noteOnLoop, hin, matchingZones, hf, servedCalls]
      | succ k =>
        simp only [List.getElem?_cons_succ] at hz
        have h0 := hg 0 (by omega)
        simp only [Nat.add_zero] at h0
        simp only [noteOnLoop, hin, matchingZones, if_true, Bool.not_true, h0, servedCalls,
          List.take_succ_cons]
        rw [if_neg (by simp)]
        rw [ih (i + 1) (nreq + 1) _ k zone hz
          (fun j hj => by
            have := hg (j + 1) (by omega)
            have e : nreq + 1 + j = nreq + (j + 1) := by omega
            rw [e]; exact this)
          (by
            have e : nreq + 1 + k = nreq + (k + 1) := by omega
            rw [e]; exact hf)]
        simp [List.append_assoc]
    · simp only [Bool.not_eq_true] at hin
      simp only [matchingZones, hin] at hz
      simp only [noteOnLoop, hin, matchingZones, Bool.not_false, if_true]
      rw [if_neg (by simp)]
      exact ih (i + 1) nreq log k zone (by simpa using hz) hg hf

theorem filter_map_eq_nil {α β : Type} (p : β → Bool) (f : α → β) (l : List α)
    (h : ∀ a, p (f a) = false) : (l.map f).filter p = [] := by
  induction l with
  | nil => rfl
  | cons a t ih => simp [h a, ih]

theorem allocRequests_voiceSetup (sample : FSample) (voice : Nat) :
    allocRequests (voiceSetup sample voice) = [] := by
  unfold allocRequests voiceSetup
  rw [List.filter_append, List.filter_append,
    filter_map_eq_nil _ _ _ (fun _ => rfl), filter_map_eq_nil _ _ _ (fun _ => rfl)]
  rfl

theorem voiceStarts_voiceSetup (sample : FSample) (voice : Nat) :
    voiceStarts (voiceSetup sample voice) = [EngineCall.start_voice voice] := by
  unfold voiceStarts voiceSetup
  rw [List.filter_append, List.filter_append,
    filter_map_eq_nil _ _ _ (fun _ => rfl), filter_map_eq_nil _ _ _ (fun _ => rfl)]
  rfl

theorem allocRequests_append (a b : List EngineCall) :
    allocRequests (a ++ b) = allocRequests a ++ allocRequests b := by
  simp [allocRequests]

theorem voiceStarts_append (a b : List EngineCall) :
    voiceStarts (a ++ b) = voiceStarts a ++ voiceStarts b := by
  simp [voiceStarts]

theorem allocRequests_servedCalls (chan key vel : Int) (grant : Nat → Nat)
    (zones : List (Nat × FSample)) :
    ∀ n, allocRequests (servedCalls chan key vel grant zones n) =
      zones.map (fun z => EngineCall.alloc_voice z.1 chan key vel) := by
  induction zones with
  | nil => intro n; rfl
  | cons z rest ih =>
    intro n
    simp only [servedCalls, allocRequests_append, allocRequests_voiceSetup, ih, List.map_cons,
      List.append_nil]
    rfl

theorem voiceStarts_servedCalls (chan key vel : Int) (grant : Nat → Nat)
    (zones : List (Nat × FSample)) :
    ∀ n, voiceStarts (servedCalls chan key vel grant zones n) =
      (List.range zones.length).map (fun j => EngineCall.start_voice (grant (n + j))) := by
  induction zones with
  | nil => intro n; rfl
  | cons z rest ih =>
    intro n
    simp only [servedCalls, voiceStarts_append, voiceStarts_voiceSetup, ih, List.length_cons,
      List.range_succ_eq_map, List.map_cons, List.map_map]
    have h0 : List.filter EngineCall.isStartVoice
        [EngineCall.alloc_voice z.1 chan key vel] = [] := rfl
    simp [voiceStarts, h0, Function.comp, Nat.add_assoc, Nat.add_comm 1]

/-- C5. If the engine refuses the voice for the `k`-th zone, in zone order, whose ranges
contain `(key, vel)`, having granted the voices `grant 0`, ..., `grant (k-2)` for the
earlier ones, `FPreset_noteOn` returns `FLUID_FAILED`.  Its engine calls are the complete
sequences (request, generator values, modulators, start) of the first `k-1` matching zones
followed by the refused request and nothing else: exactly `k` allocation requests, those
of the first `k` matching zones in order, and exactly `k-1` voice starts, those of the
voices granted before, which are not undone.  No later zone is requested, set up or
started. -/
theorem FPreset_noteOn_alloc_failure (voices : Nat → Option Nat) (grant : Nat → Nat)
    (self : FPreset) (chan key vel : Int) (log : List EngineCall) (k : Nat)
    (zone : Nat × FSample) (hk : 1 ≤ k)
    (hzone : (matchingZones key vel self.Samples 0)[k - 1]? = some zone)
    (hgrant : ∀ j, j < k - 1 → voices j = some (grant j))
    (hfail : voices (k - 1) = none) :
    FPreset_noteOn voices self chan key vel log =
      (FLUID_FAILED,
        log ++ servedCalls chan key vel grant
            ((matchingZones key vel self.Samples 0).take (k - 1)) 0 ++
          [EngineCall.alloc_voice zone.1 chan key vel]) ∧
    allocRequests (servedCalls chan key vel grant
          ((matchingZones key vel self.Samples 0).take (k - 1)) 0 ++
        [EngineCall.alloc_voice zone.1 chan key vel]) =
      ((matchingZones key vel self.Samples 0).take k).map
        (fun z => EngineCall.alloc_voice z.1 chan key vel) ∧
    (allocRequests (servedCalls chan key vel grant
          ((matchingZones key vel self.Samples 0).take (k - 1)) 0 ++
        [EngineCall.alloc_voice zone.1 chan key vel])).length = k ∧
    voiceStarts (servedCalls chan key vel grant
          ((matchingZones key vel self.Samples 0).take (k - 1)) 0 ++
        [EngineCall.alloc_voice zone.1 chan key vel]) =
      (List.range (k - 1)).map (fun j => EngineCall.start_voice (grant j)) := by
  obtain ⟨hlt, hget⟩ := List.getElem?_eq_some.1 hzone
  have htake : (matchingZones key vel self.Samples 0).take k =
      (matchingZones key vel self.Samples 0).take (k - 1) ++ [zone] := by
    have hk' : k = (k - 1) + 1 := by omega
    conv_lhs => rw [hk']
    rw [List.take_succ, hzone]
    rfl
  have hlen : ((matchingZones key vel self.Samples 0).take (k - 1)).length = k - 1 := by
    rw [List.length_take]; omega
  have halloc : allocRequests (servedCalls chan key vel grant
        ((matchingZones key vel self.Samples 0).take (k - 1)) 0 ++
      [EngineCall.alloc_voice zone.1 chan key vel]) =
      ((matchingZones key vel self.Samples 0).take k).map
        (fun z => EngineCall.alloc_voice z.1 chan key vel) := by
    rw [allocRequests_append, allocRequests_servedCalls, htake, List.map_append]
    rfl
  refine ⟨?_, halloc, ?_, ?_⟩
  · unfold FPreset_noteOn
    exact noteOnLoop_refused voices grant chan key vel self.Samples 0 0 log (k - 1) zone hzone
      (fun j hj => by simpa using hgrant j hj) (by simpa using hfail)
  · rw [halloc, List.length_map, List.length_take]
    omega
  · rw [voiceStarts_append, voiceStarts_servedCalls, hlen]
    have h0 : voiceStarts [EngineCall.alloc_voice zone.1 chan key vel] = [] := rfl
    simp [h0]

/-- C5, at a concrete preset: the zones 0 and 2 match key 60, the engine grants voice 7
for the first and refuses the second (`k = 2`). -/
theorem FPreset_noteOn_alloc_failure_witness :
    (FPreset_noteOn (fun n => if n = 0 then some 7 else none) examplePreset 0 60 100 []).1 =
      FLUID_FAILED :=
  congrArg Prod.fst
    (FPreset_noteOn_alloc_failure (fun n => if n = 0 then some 7 else none) (fun _ => 7)
      examplePreset 0 60 100 [] 2 (2, FSample_Construct (exampleZone 0 127 0 127))
      (by decide) rfl
      (fun j hj => by
        have h0 : j = 0 := by omega
        subst h0; rfl)
      rfl).1

theorem matchingZones_none (key vel : Int) (samples : List FSample) :
    ∀ (base : Nat),
      (∀ (j : Nat) (z : FSample), samples[j]? = some z → inRange z.Sound key vel = false) →
      matchingZones key vel samples base = [] := by
  induction samples with
  | nil => intro base _; rfl
  | cons s rest ih =>
    intro base h
    have h0 := h 0 s (by simp)
    simp only [matchingZones, h0]
    exact ih (base + 1) (fun j z hz => h (j + 1) z (by simpa using hz))

theorem matchingZones_unique (key vel : Int) (samples : List FSample) :
    ∀ (base i : Nat) (sample : FSample),
      samples[i]? = some sample → inRange sample.Sound key vel = true →
      (∀ (j : Nat) (z : FSample), samples[j]? = some z →
        inRange z.Sound key vel = true → j = i) →
      matchingZones key vel samples base = [(base + i, sample)] := by
  induction samples with
  | nil => intro base i sample hi; simp at hi
  | cons s rest ih =>
    intro base i sample hi hin huniq
    cases i with
    | zero =>
      simp only [List.getElem?_cons_zero, Option.some.injEq] at hi
      subst hi
      simp only [matchingZones, hin, if_true, Nat.add_zero]
      rw [matchingZones_none key vel rest (base + 1) (fun j z hz => by
        by_contra hne
        have := huniq (j + 1) z (by simpa using hz) (by simpa using hne)
        omega)]
    | succ i =>
      simp only [List.getElem?_cons_succ] at hi
      have hs : inRange s.Sound key vel = false := by
        by_contra hne
        have := huniq 0 s (by simp) (by simpa using hne)
        omega
      simp only [matchingZones, hs]
      rw [ih (base + 1) i sample hi hin (fun j z hz hzin => by
        have := huniq (j + 1) z (by simpa using hz) hzin
        omega)]
      simp [Nat.add_assoc, Nat.add_comm 1]

/-- C4, as the code has it.  For a preset adapter and a `(key, vel)` that lies in the
range of exactly one zone, the one at index `i`, `FPreset_noteOn` makes exactly one voice
allocation request, for the sample adapter `i` with the given channel, key and velocity.
If the engine grants a voice, the 27 generator values of that zone (ids 5-11, 25-40, 51,
52, 54, 56) are set on it, the sample adapter's modulators are added, the voice is
started once, nothing else is called and the result is `FLUID_OK`.  If the engine refuses
the voice, the request is the only call and the result is `FLUID_FAILED`. -/
theorem FPreset_noteOn_single_zone (voices : Nat → Option Nat) (self : FPreset)
    (chan key vel : Int) (log : List EngineCall) (i : Nat) (sample : FSample)
    (hi : self.Samples[i]? = some sample)
    (hin : inRange sample.Sound key vel = true)
    (huniq : ∀ (j : Nat) (z : FSample), self.Samples[j]? = some z →
      inRange z.Sound key vel = true → j = i) :
    (∀ voice, voices 0 = some voice →
      FPreset_noteOn voices self chan key vel log =
        (FLUID_OK,
          log ++ [EngineCall.alloc_voice i chan key vel] ++
            (genValues sample.Sound).map (fun g => EngineCall.gen_set voice g.1 g.2) ++
            sample.Mods.map (fun m => EngineCall.add_mod voice m) ++
            [EngineCall.start_voice voice])) ∧
    (voices 0 = none →
      FPreset_noteOn voices self chan key vel log =
        (FLUID_FAILED, log ++ [EngineCall.alloc_voice i chan key vel])) ∧
    (genValues sample.Sound).map Prod.fst =
      [5, 6, 7, 8, 9, 10, 11, 25, 26, 27, 28, 29, 30, 31, 32, 33, 34, 35, 36, 37, 38, 39, 40,
        51, 52, 54, 56] := by
  have hm := matchingZones_unique key vel self.Samples 0 i sample hi hin huniq
  simp only [Nat.zero_add] at hm
  refine ⟨?_, ?_, rfl⟩
  · intro voice hv
    unfold FPreset_noteOn
    rw [noteOnLoop_granted voices (fun _ => voice) chan key vel self.Samples 0 0 log
      (fun j hj => by
        rw [hm] at hj
        have h0 : j = 0 := by simpa using hj
        subst h0; exact hv)]
    rw [hm]
    simp [servedCalls, voiceSetup, List.append_assoc]
  · intro hv
    unfold FPreset_noteOn
    rw [noteOnLoop_refused voices (fun _ => 0) chan key vel self.Samples 0 0 log 0
      (i, sample) (by rw [hm]; rfl) (fun j hj => by omega) (by simpa using hv)]
    simp [servedCalls]

/-- C4, at a concrete preset: key 60 lies in the second zone only, the engine grants
voice 7. -/
theorem FPreset_noteOn_single_zone_witness :
    (FPreset_noteOn (fun _ => some 7) exampleSplitPreset 0 60 100 []).1 = FLUID_OK :=
  congrArg Prod.fst
    ((FPreset_noteOn_single_zone (fun _ => some 7) exampleSplitPreset 0 60 100 [] 1
      (FSample_Construct (exampleZone 60 127 0 127)) rfl rfl
      (fun j z hz hzin => by
        match j, hz with
        | 0, hz =>
          simp only [exampleSplitPreset, FPreset_Construct, if_true, List.map_cons,
            List.getElem?_cons_zero, Option.some.injEq] at hz
          subst hz
          exact absurd hzin (by decide)
        | 1, _ => rfl
        | j + 2, hz =>
          simp [exampleSplitPreset, FPreset_Construct] at hz)).1 7 rfl)

/-- C4 fails as stated.  Key 60 lies in exactly one zone of the preset (the two ranges
are disjoint), the engine refuses the voice: `FPreset_noteOn` returns `FLUID_FAILED` and
its only engine call is the allocation request; no generator is set, no voice started. -/
theorem FPreset_noteOn_single_zone_refused :
    FPreset_noteOn (fun _ => none) exampleSplitPreset 0 60 100 [] =
      (FLUID_FAILED, [EngineCall.alloc_voice 1 0 60 100]) := by
  decide

/-! ### Iterating over a catalog adapter -/

theorem iterNext_at (sf : FSfont) (out : fluid_preset_t) (p : FPreset)
    (h : sf.Presets[sf.CurrentPos]? = some p) :
    FSfont_iterNext sf out =
      (1, { sf with CurrentPos := sf.CurrentPos + 1 },
        { p.tofluid_preset_t with isFreeSet := false }) := by
  obtain ⟨hlt, hget⟩ := List.getElem?_eq_some.1 h
  unfold FSfont_iterNext
  rw [List.drop_eq_getElem_cons hlt, hget]

theorem iterNext_end (sf : FSfont) (out : fluid_preset_t)
    (h : sf.Presets.length ≤ sf.CurrentPos) :
    FSfont_iterNext sf out = (0, sf, out) := by
  unfold FSfont_iterNext
  rw [List.drop_eq_nil_of_le h]

theorem constructPresets_getElem? (allocSamples : Nat → Bool) (presets : List ALsfpreset) :
    ∀ (base i : Nat),
      (constructPresets allocSamples base presets)[i]? =
        (presets[i]?).map (fun p => FPreset_Construct (allocSamples (base + i)) (base + i) p) := by
  induction presets with
  | nil => intro base i; simp [constructPresets]
  | cons p rest ih =>
    intro base i
    cases i with
    | zero => simp [constructPresets]
    | succ i =>
      simp only [constructPresets, List.getElem?_cons_succ, ih]
      have e : base + 1 + i = base + (i + 1) := by omega
      rw [e]

theorem constructPresets_length (allocSamples : Nat → Bool) (presets : List ALsfpreset) :
    ∀ (base : Nat), (constructPresets allocSamples base presets).length = presets.length := by
  induction presets with
  | nil => intro base; rfl
  | cons p rest ih => intro base; simp [constructPresets, ih]

theorem iterNextTimes_spec (presets : List FPreset) (id : Int) :
    ∀ (n c : Nat) (out : fluid_preset_t),
      c + n ≤ presets.length →
      (∀ (i : Nat) (p : FPreset), presets[i]? = some p →
        p.tofluid_preset_t = ⟨i, false, false⟩) →
      iterNextTimes n { id := id, Presets := presets, CurrentPos := c } out =
        ((List.range n).map (fun j => ((1 : Int), (⟨c + j, false, false⟩ : fluid_preset_t))),
          { id := id, Presets := presets, CurrentPos := c + n },
          if n = 0 then out else ⟨c + n - 1, false, false⟩) := by
  intro n
  induction n with
  | zero => intro c out _ _; simp [iterNextTimes]
  | succ n ih =>
    intro c out hle hdata
    have hlt : c < presets.length := by omega
    have hget : presets[c]? = some presets[c] := by simp [hlt]
    have hd := hdata c _ hget
    rw [iterNextTimes, iterNext_at _ out presets[c] hget]
    simp only []
    rw [hd, ih (c + 1) _ (by omega) hdata]
    simp only [List.range_succ_eq_map, List.map_cons, List.map_map, Nat.add_zero]
    refine Prod.ext ?_ (Prod.ext ?_ ?_)
    · simp [Function.comp, Nat.add_assoc, Nat.add_comm 1]
    · simp [Nat.add_assoc, Nat.add_comm 1]
    · by_cases hn : n = 0
      · subst hn; simp
      · simp [hn]

/-- C10, as the code has it.  For a soundfont with `P` presets whose preset array was
allocated, `FSfont_Construct`, `FSfont_iterStart` and then `P` calls of `FSfont_iterNext`
return 1 each time and yield the presets in the soundfont's order: the `i`-th call hands
out the preset object of `Presets[i]` with its `free` slot cleared, whose bank and preset
number are those of the soundfont's preset `i`.  The cursor is then `P`, and one more
`FSfont_iterNext` returns 0 and changes neither the adapter nor the caller's object.
When the preset array was not allocated the adapter has no presets and the first
`FSfont_iterNext` returns 0. -/
theorem FSfont_iterate_roundtrip (allocSamples : Nat → Bool) (sfont : ALsoundfont)
    (out : fluid_preset_t) :
    (iterNextTimes sfont.Presets.length
        (FSfont_iterStart (FSfont_Construct true allocSamples sfont)) out).1 =
      (List.range sfont.Presets.length).map
        (fun i => ((1 : Int), (⟨i, false, false⟩ : fluid_preset_t))) ∧
    (∀ (i : Nat) (p : ALsfpreset), sfont.Presets[i]? = some p →
      FPreset_getBank (FSfont_Construct true allocSamples sfont) ⟨i, false, false⟩ =
          some p.Bank ∧
        FPreset_getPreset (FSfont_Construct true allocSamples sfont) ⟨i, false, false⟩ =
          some p.Preset) ∧
    (iterNextTimes sfont.Presets.length
        (FSfont_iterStart (FSfont_Construct true allocSamples sfont)) out).2.1.CurrentPos =
      sfont.Presets.length ∧
    FSfont_iterNext
        (iterNextTimes sfont.Presets.length
          (FSfont_iterStart (FSfont_Construct true allocSamples sfont)) out).2.1
        (iterNextTimes sfont.Presets.length
          (FSfont_iterStart (FSfont_Construct true allocSamples sfont)) out).2.2 =
      (0,
        (iterNextTimes sfont.Presets.length
          (FSfont_iterStart (FSfont_Construct true allocSamples sfont)) out).2.1,
        (iterNextTimes sfont.Presets.length
          (FSfont_iterStart (FSfont_Construct true allocSamples sfont)) out).2.2) ∧
    FSfont_iterNext (FSfont_iterStart (FSfont_Construct false allocSamples sfont)) out =
      (0, FSfont_iterStart (FSfont_Construct false allocSamples sfont), out) := by
  have hlen := constructPresets_length allocSamples sfont.Presets 0
  have hspec := iterNextTimes_spec (constructPresets allocSamples 0 sfont.Presets)
    FLUID_FAILED sfont.Presets.length 0 out (by omega)
    (fun i p hp => by
      rw [constructPresets_getElem?] at hp
      cases hq : sfont.Presets[i]? with
      | none => rw [hq] at hp; simp at hp
      | some q =>
        rw [hq] at hp
        simp only [Option.map_some', Option.some.injEq] at hp
        subst hp
        simp [FPreset_Construct])
  have hstart : FSfont_iterStart (FSfont_Construct true allocSamples sfont) =
      { id := FLUID_FAILED, Presets := constructPresets allocSamples 0 sfont.Presets,
        CurrentPos := 0 } := rfl
  rw [hstart, hspec]
  refine ⟨by simp, ?_, by simp, ?_, rfl⟩
  · intro i p hp
    simp [FPreset_getBank, FPreset_getPreset, FSfont_Construct, constructPresets_getElem?,
      hp, FPreset_Construct]
  · exact iterNext_end _ _ (by simp [hlen])

/-- C10 fails as stated.  A soundfont with one preset whose preset array could not be
allocated: the adapter is constructed with no presets and the first `FSfont_iterNext`
after `FSfont_iterStart` returns 0. -/
theorem FSfont_iterate_unallocated :
    (FSfont_iterNext
      (FSfont_iterStart
        (FSfont_Construct false (fun _ => true) { Presets := [⟨5, 1, []⟩] }))
      ⟨0, true, true⟩).1 = 0 := by
  decide

/-! ### The soundfont addressing protocol -/

theorem digitChar_isdigit (d : Nat) (h : d < 10) :
    isdigit (Nat.digitChar d) = true ∧ (Nat.digitChar d).toNat - 48 = d ∧
      isspace (Nat.digitChar d) = false ∧ (Nat.digitChar d).toNat ≠ 45 ∧
      (Nat.digitChar d).toNat ≠ 43 := by
  interval_cases d <;> decide

theorem toDigitsCore_eq :
    ∀ (f n : Nat) (ds : List Char), n < f →
      Nat.toDigitsCore 10 f n ds = Nat.toDigits 10 n ++ ds := by
  intro f
  induction f using Nat.strong_induction_on with
  | _ f ih =>
    intro n ds hn
    cases f with
    | zero => omega
    | succ f =>
      by_cases h0 : n / 10 = 0
      · simp [Nat.toDigits, Nat.toDigitsCore, h0]
      · have hlt : n / 10 < n := Nat.div_lt_self (by omega) (by decide)
        have h1 := ih f (by omega) (n / 10) (Nat.digitChar (n % 10) :: ds) (by omega)
        have h2 := ih n (by omega) (n / 10) [Nat.digitChar (n % 10)] hlt
        simp only [Nat.toDigits, Nat.toDigitsCore, h0, if_false] at h1 h2 ⊢
        rw [h1, h2]
        simp

theorem toDigits_step (n : Nat) (h : n / 10 ≠ 0) :
    Nat.toDigits 10 n = Nat.toDigits 10 (n / 10) ++ [Nat.digitChar (n % 10)] := by
  have hlt : n / 10 < n := Nat.div_lt_self (by omega) (by decide)
  have := toDigitsCore_eq n (n / 10) [Nat.digitChar (n % 10)] hlt
  conv_lhs => simp only [Nat.toDigits, Nat.toDigitsCore, h, if_false]
  exact this

theorem toDigits_small (n : Nat) (h : n / 10 = 0) :
    Nat.toDigits 10 n = [Nat.digitChar (n % 10)] := by
  simp [Nat.toDigits, Nat.toDigitsCore, h]

theorem scanDigits_append_digit (l : List Char) (c : Char) (hc : isdigit c = true) :
    ∀ acc, (∀ x ∈ l, isdigit x = true) →
      scanDigits (l ++ [c]) acc = scanDigits l acc * 10 + (c.toNat - 48) := by
  induction l with
  | nil => intro acc _; simp [scanDigits, hc]
  | cons x rest ih =>
    intro acc h
    have hx : isdigit x = true := h x (by simp)
    simp only [List.cons_append, scanDigits, hx, if_true]
    exact ih _ (fun y hy => h y (by simp [hy]))

theorem scanDigits_toDigits (n : Nat) :
    (∀ x ∈ Nat.toDigits 10 n, isdigit x = true) ∧ scanDigits (Nat.toDigits 10 n) 0 = n ∧
      ∃ d rest, Nat.toDigits 10 n = d :: rest ∧ isdigit d = true ∧ isspace d = false ∧
        d.toNat ≠ 45 ∧ d.toNat ≠ 43 := by
  induction n using Nat.strong_induction_on with
  | _ n ih =>
    have hd := digitChar_isdigit (n % 10) (Nat.mod_lt _ (by decide))
    by_cases h0 : n / 10 = 0
    · rw [toDigits_small n h0]
      refine ⟨by simpa using hd.1, ?_, _, _, rfl, hd.1, hd.2.2.1, hd.2.2.2.1, hd.2.2.2.2⟩
      simp only [scanDigits, hd.1, if_true, hd.2.1]
      omega
    · have hlt : n / 10 < n := Nat.div_lt_self (by omega) (by decide)
      obtain ⟨hall, hval, d, rest, hcons, hdd⟩ := ih (n / 10) hlt
      rw [toDigits_step n h0]
      refine ⟨?_, ?_, d, rest ++ [Nat.digitChar (n % 10)], by rw [hcons]; rfl, hdd⟩
      · intro x hx
        rcases List.mem_append.1 hx with hx | hx
        · exact hall x hx
        · simp only [List.mem_singleton] at hx
          rw [hx]; exact hd.1
      · rw [scanDigits_append_digit _ _ hd.1 0 hall, hval, hd.2.1]
        omega

theorem matchChars_append (a b : List Char) : matchChars a (a ++ b) = some b := by
  induction a with
  | nil => rfl
  | cons x rest ih => simp [matchChars, ih]

/-- The exact form: `sscanf` reads the index `i` back from `"_al_internal "` followed by
the decimal digits of `i`. -/
theorem sscanf_al_internal_exact (i : Nat) (h : (i : Int) ≤ INT_MAX) :
    sscanf_al_internal ("_al_internal ".toList ++ (Nat.repr i).toList) =
      ScanResult.value (i : Int) := by
  obtain ⟨_, hval, d, rest, hcons, hdd, hds, h45, h43⟩ := scanDigits_toDigits i
  have hrepr : (Nat.repr i).toList = Nat.toDigits 10 i := rfl
  have hsplit : "_al_internal ".toList = "_al_internal".toList ++ [Char.ofNat 32] := by
    decide
  have hsp : isspace (Char.ofNat 32) = true := by decide
  unfold sscanf_al_internal
  rw [hrepr, hsplit, List.append_assoc, matchChars_append]
  simp only [List.singleton_append, skipSpace, hsp, if_true, hcons, hds]
  have hs : skipSpace (d :: rest) = d :: rest := by simp [skipSpace, hds]
  simp only [Bool.false_eq_true, if_false, hs, scanDecimal, h45, h43, hdd, if_true]
  rw [← hcons, hval]
  have hmin : INT_MIN ≤ (i : Int) := by unfold INT_MIN; omega
  simp [hmin, h]

/-- C2, as the code has it.  `FSynth_loadSfont` returns `NULL`, constructing no adapter,
for an absent string, for a string on which `sscanf` with `"_al_internal %d"` converts no
integer, for an index `idx >= NumSoundfonts`, and when the adapter cannot be allocated.
For a string that scans to an index `0 <= idx < NumSoundfonts` it returns, when the
allocation succeeds, the adapter constructed from `Soundfonts[idx]`; the exact form,
`"_al_internal "` followed by the decimal digits of an index `i < NumSoundfonts`, is such
a string.  Nothing is said about a negative index. -/
theorem FSynth_loadSfont_scan (self : FSynth) (alloc allocPresets : Bool)
    (allocSamples : Nat → Bool) :
    FSynth_loadSfont self none alloc allocPresets allocSamples = LoadSfontResult.NULL ∧
    (∀ name : List Char, sscanf_al_internal name = ScanResult.failed →
      FSynth_loadSfont self (some name) alloc allocPresets allocSamples =
        LoadSfontResult.NULL) ∧
    (∀ (name : List Char) (idx : Int), sscanf_al_internal name = ScanResult.value idx →
      (self.NumSoundfonts : Int) ≤ idx →
      FSynth_loadSfont self (some name) alloc allocPresets allocSamples =
        LoadSfontResult.NULL) ∧
    (∀ (name : List Char) (idx : Int), sscanf_al_internal name = ScanResult.value idx →
      0 ≤ idx → idx < (self.NumSoundfonts : Int) → alloc = false →
      FSynth_loadSfont self (some name) alloc allocPresets allocSamples =
        LoadSfontResult.NULL) ∧
    (∀ (name : List Char) (idx : Int), sscanf_al_internal name = ScanResult.value idx →
      0 ≤ idx → idx < (self.NumSoundfonts : Int) → alloc = true →
      ∃ sfont, self.Soundfonts[idx.toNat]? = some sfont ∧
        FSynth_loadSfont self (some name) alloc allocPresets allocSamples =
          LoadSfontResult.adapter (FSfont_Construct allocPresets allocSamples sfont)) ∧
    (∀ (i : Nat) (sfont : ALsoundfont), self.Soundfonts[i]? = some sfont →
      (i : Int) ≤ INT_MAX → alloc = true →
      FSynth_loadSfont self (some ("_al_internal ".toList ++ (Nat.repr i).toList))
          alloc allocPresets allocSamples =
        LoadSfontResult.adapter (FSfont_Construct allocPresets allocSamples sfont)) := by
  refine ⟨rfl, ?_, ?_, ?_, ?_, ?_⟩
  · intro name h
    simp [FSynth_loadSfont, h]
  · intro name idx h hge
    simp [FSynth_loadSfont, h, hge]
  · intro name idx h h0 hlt ha
    have : ¬ (self.NumSoundfonts : Int) ≤ idx := not_le.2 hlt
    simp [FSynth_loadSfont, h, this, ha]
  · intro name idx h h0 hlt ha
    have hnot : ¬ (self.NumSoundfonts : Int) ≤ idx := not_le.2 hlt
    have hn : idx.toNat < self.Soundfonts.length := by
      unfold MidiSynth.NumSoundfonts at hlt; omega
    refine ⟨self.Soundfonts[idx.toNat], by simp [hn], ?_⟩
    have hneg : ¬ idx < 0 := not_lt.2 h0
    simp [FSynth_loadSfont, h, hnot, ha, hneg, hn]
  · intro i sfont hi hmax ha
    obtain ⟨hlt, _⟩ := List.getElem?_eq_some.1 hi
    have hnot : ¬ (self.NumSoundfonts : Int) ≤ (i : Int) := by
      unfold MidiSynth.NumSoundfonts; omega
    have hneg : ¬ (i : Int) < 0 := by omega
    have hs := sscanf_al_internal_exact i hmax
    unfold FSynth_loadSfont
    simp only [hs]
    simp [hnot, ha, hneg, hi]

/-- C2 fails as stated.  With one soundfont in the catalog, the identifier
`"_al_internal 0xyz"`, which has trailing characters after the integer, is answered with
the adapter of soundfont 0; so are `"_al_internal0"`, without the blank, and
`"_al_internal   +0"`. -/
theorem FSynth_loadSfont_trailing :
    FSynth_loadSfont
        (FSynth_Construct { exampleBase ALstate.AL_INITIAL [] 0 0 0 0 1 with
          Soundfonts := [{ Presets := [⟨5, 1, []⟩] }] })
        (some "_al_internal 0xyz".toList) true true (fun _ => true) =
      LoadSfontResult.adapter
        (FSfont_Construct true (fun _ => true) { Presets := [⟨5, 1, []⟩] }) ∧
    FSynth_loadSfont
        (FSynth_Construct { exampleBase ALstate.AL_INITIAL [] 0 0 0 0 1 with
          Soundfonts := [{ Presets := [⟨5, 1, []⟩] }] })
        (some "_al_internal0".toList) true true (fun _ => true) =
      LoadSfontResult.adapter
        (FSfont_Construct true (fun _ => true) { Presets := [⟨5, 1, []⟩] }) ∧
    FSynth_loadSfont
        (FSynth_Construct { exampleBase ALstate.AL_INITIAL [] 0 0 0 0 1 with
          Soundfonts := [{ Presets := [⟨5, 1, []⟩] }] })
        (some "_al_internal   +0".toList) true true (fun _ => true) =
      LoadSfontResult.adapter
        (FSfont_Construct true (fun _ => true) { Presets := [⟨5, 1, []⟩] }) :=
  ⟨rfl, rfl, rfl⟩

/-- C2, at a concrete catalog: the exact form `"_al_internal 0"` with one soundfont. -/
theorem FSynth_loadSfont_scan_witness :
    ∃ sfont,
      (FSynth_Construct { exampleBase ALstate.AL_INITIAL [] 0 0 0 0 1 with
          Soundfonts := [{ Presets := [⟨5, 1, []⟩] }] }).Soundfonts[(0 : Int).toNat]? =
        some sfont ∧
      FSynth_loadSfont
          (FSynth_Construct { exampleBase ALstate.AL_INITIAL [] 0 0 0 0 1 with
            Soundfonts := [{ Presets := [⟨5, 1, []⟩] }] })
          (some "_al_internal 0".toList) true true (fun _ => true) =
        LoadSfontResult.adapter (FSfont_Construct true (fun _ => true) sfont) :=
  (FSynth_loadSfont_scan
    (FSynth_Construct { exampleBase ALstate.AL_INITIAL [] 0 0 0 0 1 with
      Soundfonts := [{ Presets := [⟨5, 1, []⟩] }] })
    true true (fun _ => true)).2.2.2.2.1 "_al_internal 0".toList 0 (by decide) (by decide)
    (by decide) rfl

/-- A negative index passes the bound test of `FSynth_loadSfont`: for `"_al_internal -1"`
the result is neither `NULL` nor an adapter of the catalog, the function goes on to read
`Soundfonts[-1]`. -/
theorem FSynth_loadSfont_negative :
    FSynth_loadSfont
        (FSynth_Construct { exampleBase ALstate.AL_INITIAL [] 0 0 0 0 1 with
          Soundfonts := [{ Presets := [⟨5, 1, []⟩] }] })
        (some "_al_internal -1".toList) true true (fun _ => true) =
      LoadSfontResult.undefined :=
  rfl

/-! ### Replacing the resident soundfonts -/

theorem unloadFonts_map (H : List Int) :
    ∀ (log : List EngineCall),
      unloadFonts (H.map some) H.length log =
        some (log ++ H.map (fun h => EngineCall.sfunload h 1)) := by
  induction H with
  | nil => intro log; simp [unloadFonts]
  | cons h rest ih =>
    intro log
    simp [unloadFonts, ih, List.append_assoc]

theorem selectLoadLoop_spec (sfload : Nat → Int) :
    ∀ (n i : Nat) (log : List EngineCall),
      selectLoadLoop sfload n i
          ((List.range i).map (fun j => some (sfload j)) ++ List.replicate n none) log =
        some ((List.range (i + n)).map (fun j => some (sfload j)),
          log ++ (List.range' i n).map (fun j => EngineCall.sfload (internalName j) 1)) := by
  intro n
  induction n with
  | zero => intro i log; simp [selectLoadLoop]
  | succ n ih =>
    intro i log
    have hlt : i < ((List.range i).map (fun j => some (sfload j)) ++
        List.replicate (n + 1) (none : Option Int)).length := by simp
    have hset : ((List.range i).map (fun j => some (sfload j)) ++
        List.replicate (n + 1) (none : Option Int)).set i (some (sfload i)) =
        (List.range (i + 1)).map (fun j => some (sfload j)) ++ List.replicate n none := by
      rw [List.set_append_right _ _ (by simp)]
      simp [List.replicate_succ, List.range_succ]
    rw [selectLoadLoop, if_pos hlt, hset, ih (i + 1)]
    simp [List.range'_succ, Nat.add_assoc, Nat.add_comm 1]

theorem internalName_short :
    ∀ i, i < 100 → internalName i = "_al_internal ".toList ++ (Nat.repr i).toList := by
  decide

/-- The buffer `char name[16]` cuts the name of soundfont 100 down to that of soundfont
10. -/
theorem internalName_truncated : internalName 100 = internalName 10 := by
  decide

/-- C3, as the code has it.  Let the host policy accept the selection and leave `count`
soundfonts in the catalog, and let the registry hold the handle list `H`.  If the new
handle array is allocated, `FSynth_selectSoundfonts` loads `count` soundfonts (load `i`
under the name that `snprintf` leaves in `char name[16]`, which for `i < 100` is
`"_al_internal i"`), the registry then holds exactly `count` handles, entry `i` being the
handle the engine returned for load `i`, and after the loads every handle of `H` is passed
to the engine's unload exactly once, in order.  If the array cannot be allocated nothing is
loaded, the registry is left empty (`NumFontIDs = 0`), and every handle of `H` is likewise
unloaded exactly once. -/
theorem FSynth_selectSoundfonts_swap
    (policy : MidiSynth → Nat → List Nat → ALerror × MidiSynth) (sfload : Nat → Int)
    (self : FSynth) (count : Nat) (ids : List Nat) (log : List EngineCall) (H : List Int)
    (hacc : (policy self.toMidiSynth count ids).1 = ALerror.AL_NO_ERROR)
    (hnum : (policy self.toMidiSynth count ids).2.NumSoundfonts = count)
    (hreg : self.FontIDs = H.map some) (hlen : self.NumFontIDs = H.length) :
    (∃ after : FSynth,
      FSynth_selectSoundfonts policy sfload true self count ids log =
        some (ALerror.AL_NO_ERROR, after,
          log ++ (List.range count).map (fun i => EngineCall.sfload (internalName i) 1) ++
            H.map (fun h => EngineCall.sfunload h 1)) ∧
      after.NumFontIDs = count ∧
      after.FontIDs = (List.range count).map (fun i => some (sfload i)) ∧
      after.toMidiSynth = (policy self.toMidiSynth count ids).2 ∧
      after.ForceGM2BankSelect = self.ForceGM2BankSelect) ∧
    (∃ after : FSynth,
      FSynth_selectSoundfonts policy sfload false self count ids log =
        some (ALerror.AL_NO_ERROR, after,
          log ++ H.map (fun h => EngineCall.sfunload h 1)) ∧
      after.NumFontIDs = 0 ∧ after.FontIDs = [] ∧
      after.toMidiSynth = (policy self.toMidiSynth count ids).2) ∧
    (∀ i, i < 100 → internalName i = "_al_internal ".toList ++ (Nat.repr i).toList) := by
  have hload := selectLoadLoop_spec sfload count 0 log
  simp only [List.range_zero, List.map_nil, List.nil_append, Nat.zero_add] at hload
  have hun := unloadFonts_map H
  refine ⟨?_, ?_, internalName_short⟩
  · refine ⟨{ self with
        toMidiSynth := (policy self.toMidiSynth count ids).2
        FontIDs := (List.range count).map (fun i => some (sfload i))
        NumFontIDs := count }, ?_, rfl, rfl, rfl, rfl⟩
    unfold FSynth_selectSoundfonts
    simp only [hacc, ne_eq, not_true_eq_false, if_false, if_true, hnum, hload, hreg, hlen,
      hun, List.range_eq_range']
  · refine ⟨{ self with
        toMidiSynth := (policy self.toMidiSynth count ids).2
        FontIDs := []
        NumFontIDs := 0 }, ?_, rfl, rfl, rfl⟩
    unfold FSynth_selectSoundfonts
    simp only [hacc, ne_eq, not_true_eq_false, if_false, hreg, hlen, hun]
    rfl

/-- C3, at a concrete registry: two soundfonts are selected while the handles 3 and 4 are
resident. -/
theorem FSynth_selectSoundfonts_swap_witness :
    (FSynth_selectSoundfonts
      (fun m _ _ => (ALerror.AL_NO_ERROR,
        { m with Soundfonts := [{ Presets := [] }, { Presets := [] }] }))
      (fun i => 10 + i) true
      { FSynth_Construct (exampleBase ALstate.AL_INITIAL [] 0 0 0 0 1) with
        FontIDs := [some 3, some 4], NumFontIDs := 2 }
      2 [1, 2] []).isSome = true := by
  obtain ⟨after, h, _⟩ := (FSynth_selectSoundfonts_swap
    (fun m _ _ => (ALerror.AL_NO_ERROR,
      { m with Soundfonts := [{ Presets := [] }, { Presets := [] }] }))
    (fun i => 10 + i)
    { FSynth_Construct (exampleBase ALstate.AL_INITIAL [] 0 0 0 0 1) with
      FontIDs := [some 3, some 4], NumFontIDs := 2 }
    2 [1, 2] [] [3, 4] rfl rfl rfl rfl).1
  rw [h]; rfl

/-- C3 fails as stated.  The host policy accepts a selection of one soundfont and the
`malloc` of the new handle array fails: the registry then holds no handle
(`NumFontIDs = 0`, not 1) and no soundfont was loaded; the resident handle 3 is unloaded
once. -/
theorem FSynth_selectSoundfonts_no_memory :
    (FSynth_selectSoundfonts
      (fun m _ _ => (ALerror.AL_NO_ERROR, { m with Soundfonts := [{ Presets := [] }] }))
      (fun i => 10 + i) false
      { FSynth_Construct (exampleBase ALstate.AL_INITIAL [] 0 0 0 0 1) with
        FontIDs := [some 3], NumFontIDs := 1 }
      1 [1] []).map (fun r => (r.1, r.2.1.NumFontIDs, r.2.1.FontIDs, r.2.2)) =
      some (ALerror.AL_NO_ERROR, 0, [], [EngineCall.sfunload 3 1]) := by
  decide

/-! ### Rendering with events -/

theorem processLoop_mono (handled : Nat → Bool) (S : Nat) :
    ∀ (f : Nat) (self : FSynth) (total : Nat) (log : List EngineCall)
      (res : FSynth × List EngineCall),
      processLoop handled S f self total log = some res →
      processLoop handled S (f + 1) self total log = some res := by
  intro f
  induction f with
  | zero => intro self total log res h; simp [processLoop] at h
  | succ f ih =>
    intro self total log res h
    rw [processLoop] at h ⊢
    split_ifs at h ⊢ with h1 h2 h3
    all_goals first | exact h | exact ih _ _ _ _ h

theorem processLoop_mono_le (handled : Nat → Bool) (S : Nat) (f g : Nat) (hfg : f ≤ g)
    (self : FSynth) (total : Nat) (log : List EngineCall) (res : FSynth × List EngineCall)
    (h : processLoop handled S f self total log = some res) :
    processLoop handled S g self total log = some res := by
  induction g with
  | zero =>
    have : f = 0 := by omega
    subst this; exact h
  | succ g ih =>
    by_cases hf : f = g + 1
    · subst hf; exact h
    · exact processLoop_mono handled S g self total log res (ih (by omega))

theorem processLoop_render (handled : Nat → Bool) (S f : Nat) (self : FSynth) (total : Nat)
    (log : List EngineCall) (ht : total < S) (h1 : self.SamplesToNext ≥ 1)
    (hk : Int.toNat ⌊self.SamplesToNext⌋ < S - total) (hS : S < 2 ^ 32) :
    processLoop handled S (f + 1) self total log =
      processLoop handled S f
        { self with
          SamplesSinceLast := self.SamplesSinceLast + ((Int.toNat ⌊self.SamplesToNext⌋ : Nat) : ℚ)
          SamplesToNext := self.SamplesToNext - ((Int.toNat ⌊self.SamplesToNext⌋ : Nat) : ℚ) }
        (total + Int.toNat ⌊self.SamplesToNext⌋)
        (log ++ [EngineCall.write_float (Int.toNat ⌊self.SamplesToNext⌋) total]) := by
  have hf : fastf2u self.SamplesToNext = Int.toNat ⌊self.SamplesToNext⌋ := by
    unfold fastf2u
    exact Nat.mod_eq_of_lt (by omega)
  have hm : minu (S - total) (fastf2u self.SamplesToNext) = Int.toNat ⌊self.SamplesToNext⌋ := by
    rw [hf]; unfold minu; exact min_eq_right (le_of_lt hk)
  rw [processLoop]
  simp only [ht, not_true_eq_false, if_false, h1, if_true, hm]

theorem processLoop_event (handled : Nat → Bool) (S f : Nat) (self : FSynth) (total : Nat)
    (log : List EngineCall) (time : Nat) (ht : total < S) (h1 : ¬ self.SamplesToNext ≥ 1)
    (h2 : self.NextEvtTime = time) (h3 : time ≠ UINT64_MAX) :
    processLoop handled S (f + 1) self total log =
      processLoop handled S f (scheduleStep handled self log time).1 total
        (scheduleStep handled self log time).2 := by
  subst h2
  rw [processLoop]
  simp only [ht, not_true_eq_false, if_false, h1, h3]

theorem processLoop_final (handled : Nat → Bool) (S f : Nat) (self : FSynth) (total : Nat)
    (log : List EngineCall) (ht : total < S) (h1 : ¬ self.SamplesToNext ≥ 1)
    (h2 : self.NextEvtTime = UINT64_MAX) :
    processLoop handled S (f + 1) self total log =
      some ({ self with
              SamplesSinceLast := self.SamplesSinceLast + ((S - total : Nat) : ℚ) },
            log ++ [EngineCall.write_float (S - total) total]) := by
  rw [processLoop]
  simp only [ht, not_true_eq_false, if_false, h1, h2, if_true]

theorem sub64_eq (a b : Nat) (h1 : b ≤ a) (h2 : a < 2 ^ 64) : sub64 a b = a - b := by
  unfold sub64
  have : a + 2 ^ 64 - b = (a - b) + 2 ^ 64 := by omega
  rw [this, Nat.add_mod_right]
  exact Nat.mod_eq_of_lt (by omega)

theorem scheduleStep_single (handled : Nat → Bool) (self : FSynth) (log : List EngineCall)
    (e : MidiEvent) (rest : List MidiEvent)
    (hq : self.EventQueue.events.drop self.EventQueue.pos = e :: rest)
    (hrest : ∀ r, rest.head? = some r → e.time < r.time) :
    (scheduleStep handled self log e.time).2 =
      log ++ (dispatchEvent (handled self.EventQueue.pos) self.ForceGM2BankSelect e).2 ∧
    (scheduleStep handled self log e.time).1.ForceGM2BankSelect =
      (dispatchEvent (handled self.EventQueue.pos) self.ForceGM2BankSelect e).1 ∧
    (scheduleStep handled self log e.time).1.EventQueue.events = self.EventQueue.events ∧
    (scheduleStep handled self log e.time).1.EventQueue.pos = self.EventQueue.pos + 1 ∧
    (scheduleStep handled self log e.time).1.SamplesPerTick = self.SamplesPerTick ∧
    (scheduleStep handled self log e.time).1.State = self.State ∧
    (scheduleStep handled self log e.time).1.NextEvtTime = nextTime rest ∧
    (scheduleStep handled self log e.time).1.SamplesToNext =
      self.SamplesToNext + nextInterval e.time self.SamplesPerTick rest := by
  have hdrop : self.EventQueue.events.drop (self.EventQueue.pos + 1) = rest := by
    rw [← List.tail_drop, hq]
    rfl
  cases rest with
  | nil =>
    simp [scheduleStep, FSynth_processQueue, hq, processQueueLoop, MidiSynth_getNextEvtTime,
      hdrop, nextTime, nextInterval]
  | cons r rest2 =>
    have hr : ¬ r.time ≤ e.time := not_le.2 (hrest r rfl)
    by_cases hmax : r.time = UINT64_MAX
    · have hr2 : ¬ UINT64_MAX ≤ e.time := by rw [← hmax]; exact hr
      simp [scheduleStep, FSynth_processQueue, hq, processQueueLoop, MidiSynth_getNextEvtTime,
        hdrop, hr2, hmax, nextTime, nextInterval]
    · simp [scheduleStep, FSynth_processQueue, hq, processQueueLoop, MidiSynth_getNextEvtTime,
        hdrop, hr, hmax, nextTime, nextInterval]

theorem floor_toNat_le (x : ℚ) (h : 0 ≤ x) : ((Int.toNat ⌊x⌋ : Nat) : ℚ) ≤ x := by
  have h1 : 0 ≤ ⌊x⌋ := Int.floor_nonneg.2 h
  have h2 : ((Int.toNat ⌊x⌋ : Nat) : ℤ) = ⌊x⌋ := Int.toNat_of_nonneg h1
  have h3 : ((Int.toNat ⌊x⌋ : Nat) : ℚ) = (⌊x⌋ : ℚ) := by exact_mod_cast h2
  rw [h3]; exact Int.floor_le x

theorem lt_floor_toNat_add_one (x : ℚ) (h : 0 ≤ x) : x < ((Int.toNat ⌊x⌋ : Nat) : ℚ) + 1 := by
  have h1 : 0 ≤ ⌊x⌋ := Int.floor_nonneg.2 h
  have h2 : ((Int.toNat ⌊x⌋ : Nat) : ℤ) = ⌊x⌋ := Int.toNat_of_nonneg h1
  have h3 : ((Int.toNat ⌊x⌋ : Nat) : ℚ) = (⌊x⌋ : ℚ) := by exact_mod_cast h2
  rw [h3]; exact Int.lt_floor_add_one x

theorem floor_toNat_add (x : ℚ) (n : ℕ) (h : (n : ℚ) ≤ x) :
    n + Int.toNat ⌊x - n⌋ = Int.toNat ⌊x⌋ := by
  have h0 : 0 ≤ x - n := by linarith
  have h1 : 0 ≤ ⌊x - n⌋ := Int.floor_nonneg.2 h0
  have h2 : ⌊x - n⌋ = ⌊x⌋ - n := Int.floor_sub_nat x n
  omega

theorem floor_toNat_zero (x : ℚ) (h0 : 0 ≤ x) (h1 : x < 1) : Int.toNat ⌊x⌋ = 0 := by
  have : ⌊x⌋ = 0 := Int.floor_eq_iff.2 ⟨by simpa using h0, by simpa using h1⟩
  rw [this]; rfl

theorem floor_toNat_pos (x : ℚ) (h : 1 ≤ x) : Int.toNat ⌊x⌋ ≠ 0 := by
  have : (1 : ℤ) ≤ ⌊x⌋ := Int.le_floor.2 (by exact_mod_cast h)
  omega

theorem process_segment (handled : Nat → Bool) (S : Nat) (self : FSynth) (n : Nat)
    (log : List EngineCall) (e : MidiEvent) (rest : List MidiEvent)
    (hq : self.EventQueue.events.drop self.EventQueue.pos = e :: rest)
    (hrest : ∀ r, rest.head? = some r → e.time < r.time)
    (hnext : self.NextEvtTime = e.time) (hne : e.time ≠ UINT64_MAX)
    (hx : 0 ≤ self.SamplesToNext)
    (hin : n + Int.toNat ⌊self.SamplesToNext⌋ < S) (hS : S < 2 ^ 32) :
    ∃ after : FSynth,
      (∀ f res,
        processLoop handled S f after (n + Int.toNat ⌊self.SamplesToNext⌋)
            (log ++ renderCalls (Int.toNat ⌊self.SamplesToNext⌋) n ++
              (dispatchEvent (handled self.EventQueue.pos) self.ForceGM2BankSelect e).2) =
          some res →
        processLoop handled S (f + 2) self n log = some res) ∧
      after.EventQueue.events = self.EventQueue.events ∧
      after.EventQueue.pos = self.EventQueue.pos + 1 ∧
      after.SamplesPerTick = self.SamplesPerTick ∧
      after.ForceGM2BankSelect =
        (dispatchEvent (handled self.EventQueue.pos) self.ForceGM2BankSelect e).1 ∧
      after.NextEvtTime = nextTime rest ∧
      after.SamplesToNext =
        self.SamplesToNext - ((Int.toNat ⌊self.SamplesToNext⌋ : Nat) : ℚ) +
          nextInterval e.time self.SamplesPerTick rest := by
  by_cases h1 : self.SamplesToNext ≥ 1
  · -- render the whole frames of the countdown, then the event
    have hk0 := floor_toNat_pos self.SamplesToNext h1
    have hlt := lt_floor_toNat_add_one self.SamplesToNext hx
    obtain ⟨s1, s2, s3, s4, s5, _, s7, s8⟩ := scheduleStep_single handled
      ({ self with
          SamplesSinceLast :=
            self.SamplesSinceLast + ((Int.toNat ⌊self.SamplesToNext⌋ : Nat) : ℚ)
          SamplesToNext :=
            self.SamplesToNext - ((Int.toNat ⌊self.SamplesToNext⌋ : Nat) : ℚ) } : FSynth)
      (log ++ [EngineCall.write_float (Int.toNat ⌊self.SamplesToNext⌋) n]) e rest hq hrest
    refine ⟨_, ?_, s3, s4, s5, s2, s7, s8⟩
    intro f res hres
    show processLoop handled S (f + 1 + 1) self n log = some res
    rw [processLoop_render handled S (f + 1) self n log (by omega) h1 (by omega) hS]
    rw [processLoop_event handled S f
      ({ self with
          SamplesSinceLast :=
            self.SamplesSinceLast + ((Int.toNat ⌊self.SamplesToNext⌋ : Nat) : ℚ)
          SamplesToNext :=
            self.SamplesToNext - ((Int.toNat ⌊self.SamplesToNext⌋ : Nat) : ℚ) } : FSynth)
      _ _ e.time (by omega)
      (by simp only [ge_iff_le, not_le]; linarith) hnext hne]
    rw [s1]
    simpa [renderCalls, hk0] using hres
  · have hlt1 : self.SamplesToNext < 1 := not_le.1 h1
    have hk0 := floor_toNat_zero self.SamplesToNext hx hlt1
    obtain ⟨s1, s2, s3, s4, s5, _, s7, s8⟩ := scheduleStep_single handled self log e rest hq hrest
    refine ⟨(scheduleStep handled self log e.time).1, ?_, s3, s4, s5, s2, s7, ?_⟩
    · intro f res hres
      show processLoop handled S (f + 1 + 1) self n log = some res
      apply processLoop_mono
      rw [processLoop_event handled S f self n log e.time (by omega) h1 hnext hne]
      rw [s1]
      simpa [renderCalls, hk0] using hres
    · rw [s8, hk0]; simp

theorem eventOffset_mono (toNext perTick : ℚ) (t1 t t2 : Nat) (hp : 0 ≤ perTick)
    (h : t ≤ t2) : eventOffset toNext perTick t1 t ≤ eventOffset toNext perTick t1 t2 := by
  unfold eventOffset
  have h1 : ((t - t1 : Nat) : ℚ) ≤ ((t2 - t1 : Nat) : ℚ) := by
    exact_mod_cast Nat.sub_le_sub_right h t1
  have h2 := mul_le_mul_of_nonneg_right h1 hp
  linarith

theorem eventFrame_bounds (toNext perTick : ℚ) (t1 t : Nat) (h0 : 0 ≤ toNext)
    (hp : 0 ≤ perTick) :
    ((eventFrame toNext perTick t1 t : Nat) : ℚ) ≤ eventOffset toNext perTick t1 t ∧
      eventOffset toNext perTick t1 t < ((eventFrame toNext perTick t1 t : Nat) : ℚ) + 1 := by
  have hnn : 0 ≤ eventOffset toNext perTick t1 t := by
    unfold eventOffset
    have : 0 ≤ ((t - t1 : Nat) : ℚ) * perTick := mul_nonneg (Nat.cast_nonneg _) hp
    linarith
  exact ⟨floor_toNat_le _ hnn, lt_floor_toNat_add_one _ hnn⟩

theorem eventFrame_mono (toNext perTick : ℚ) (t1 t t2 : Nat) (hp : 0 ≤ perTick)
    (h : t ≤ t2) : eventFrame toNext perTick t1 t ≤ eventFrame toNext perTick t1 t2 := by
  unfold eventFrame
  apply Int.toNat_le_toNat
  apply Int.floor_le_floor
  exact eventOffset_mono toNext perTick t1 t t2 hp h

/-- C6, as the code has it.  A playing synthesizer has exactly three pending events
`e1`, `e2`, `e3` with time stamps `t1 < t2 < t3` below the sentinel `UINT64_MAX`; its
clock is set up for `e1` (`NextEvtTime = t1`, `0 <= SamplesToNext`, `0 <= SamplesPerTick`)
and the exact sample offsets `x1 = SamplesToNext`, `x2 = x1 + (t2 - t1) * SamplesPerTick`,
`x3 = x1 + (t3 - t1) * SamplesPerTick` all fall inside the call (`floor x3 < SamplesToDo`).
Then `FSynth_process` returns and its engine calls are, in this order: a render of
`n1 = floor x1` frames, the calls of `e1`, a render of `n2 - n1` frames, the calls of `e2`,
a render of `n3 - n2` frames, the calls of `e3`, and a render of the remaining
`SamplesToDo - n3` frames (a render of 0 frames before an event is not requested).  So
each event is delivered after `floor x_i` frames, within one sample of its exact offset,
and the frames rendered between two events are within one sample of the tick interval
converted to samples. -/
theorem FSynth_process_three_events (handled : Nat → Bool) (fuel : Nat) (self : FSynth)
    (S : Nat) (log : List EngineCall) (e1 e2 e3 : MidiEvent)
    (hplay : self.State = ALstate.AL_PLAYING)
    (hq : self.EventQueue.events.drop self.EventQueue.pos = [e1, e2, e3])
    (hnext : self.NextEvtTime = e1.time)
    (h12 : e1.time < e2.time) (h23 : e2.time < e3.time) (h3 : e3.time < UINT64_MAX)
    (hspt : 0 ≤ self.SamplesPerTick) (hx : 0 ≤ self.SamplesToNext)
    (hin : eventFrame self.SamplesToNext self.SamplesPerTick e1.time e3.time < S)
    (hS : S < 2 ^ 32) (hfuel : 7 ≤ fuel) :
    ∃ after : FSynth,
      FSynth_process handled fuel self S log =
        some (after,
          log ++
            renderCalls (eventFrame self.SamplesToNext self.SamplesPerTick e1.time e1.time) 0 ++
            (dispatchEvent (handled self.EventQueue.pos) self.ForceGM2BankSelect e1).2 ++
            renderCalls
              (eventFrame self.SamplesToNext self.SamplesPerTick e1.time e2.time -
                eventFrame self.SamplesToNext self.SamplesPerTick e1.time e1.time)
              (eventFrame self.SamplesToNext self.SamplesPerTick e1.time e1.time) ++
            (dispatchEvent (handled (self.EventQueue.pos + 1))
              (dispatchEvent (handled self.EventQueue.pos) self.ForceGM2BankSelect e1).1 e2).2 ++
            renderCalls
              (eventFrame self.SamplesToNext self.SamplesPerTick e1.time e3.time -
                eventFrame self.SamplesToNext self.SamplesPerTick e1.time e2.time)
              (eventFrame self.SamplesToNext self.SamplesPerTick e1.time e2.time) ++
            (dispatchEvent (handled (self.EventQueue.pos + 2))
              (dispatchEvent (handled (self.EventQueue.pos + 1))
                (dispatchEvent (handled self.EventQueue.pos) self.ForceGM2BankSelect e1).1
                e2).1 e3).2 ++
            [EngineCall.write_float
              (S - eventFrame self.SamplesToNext self.SamplesPerTick e1.time e3.time)
              (eventFrame self.SamplesToNext self.SamplesPerTick e1.time e3.time)]) ∧
      after.EventQueue.pos = self.EventQueue.pos + 3 ∧
      after.EventQueue.events = self.EventQueue.events ∧
      eventOffset self.SamplesToNext self.SamplesPerTick e1.time e1.time =
        self.SamplesToNext ∧
      (∀ t, ((eventFrame self.SamplesToNext self.SamplesPerTick e1.time t : Nat) : ℚ) ≤
          eventOffset self.SamplesToNext self.SamplesPerTick e1.time t ∧
        eventOffset self.SamplesToNext self.SamplesPerTick e1.time t <
          ((eventFrame self.SamplesToNext self.SamplesPerTick e1.time t : Nat) : ℚ) + 1) ∧
      eventFrame self.SamplesToNext self.SamplesPerTick e1.time e1.time ≤
        eventFrame self.SamplesToNext self.SamplesPerTick e1.time e2.time ∧
      eventFrame self.SamplesToNext self.SamplesPerTick e1.time e2.time ≤
        eventFrame self.SamplesToNext self.SamplesPerTick e1.time e3.time ∧
      |((eventFrame self.SamplesToNext self.SamplesPerTick e1.time e2.time : Nat) : ℚ) -
          ((eventFrame self.SamplesToNext self.SamplesPerTick e1.time e1.time : Nat) : ℚ) -
          ((e2.time - e1.time : Nat) : ℚ) * self.SamplesPerTick| < 1 ∧
      |((eventFrame self.SamplesToNext self.SamplesPerTick e1.time e3.time : Nat) : ℚ) -
          ((eventFrame self.SamplesToNext self.SamplesPerTick e1.time e2.time : Nat) : ℚ) -
          ((e3.time - e2.time : Nat) : ℚ) * self.SamplesPerTick| < 1 := by
  have hb := fun t => eventFrame_bounds self.SamplesToNext self.SamplesPerTick e1.time t hx hspt
  have hm12 := eventFrame_mono self.SamplesToNext self.SamplesPerTick e1.time e1.time e2.time
    hspt (le_of_lt h12)
  have hm23 := eventFrame_mono self.SamplesToNext self.SamplesPerTick e1.time e2.time e3.time
    hspt (le_of_lt h23)
  have hmax : UINT64_MAX < 2 ^ 64 := by decide
  have hx1 : eventOffset self.SamplesToNext self.SamplesPerTick e1.time e1.time =
      self.SamplesToNext := by simp [eventOffset]
  have hn1 : eventFrame self.SamplesToNext self.SamplesPerTick e1.time e1.time =
      Int.toNat ⌊self.SamplesToNext⌋ := by unfold eventFrame; rw [hx1]
  have hd2 : ((e2.time - e1.time : Nat) : ℚ) = (e2.time : ℚ) - (e1.time : ℚ) :=
    Nat.cast_sub (le_of_lt h12)
  have hd3 : ((e3.time - e1.time : Nat) : ℚ) = (e3.time : ℚ) - (e1.time : ℚ) :=
    Nat.cast_sub (le_of_lt (lt_trans h12 h23))
  have hd23 : ((e3.time - e2.time : Nat) : ℚ) = (e3.time : ℚ) - (e2.time : ℚ) :=
    Nat.cast_sub (le_of_lt h23)
  -- first segment: up to `e1`
  obtain ⟨a1, hstep1, hev1, hpos1, hspt1, hl1, hnx1, hstn1⟩ :=
    process_segment handled S self 0 log e1 [e2, e3] hq
      (fun r hr => by simp at hr; rw [← hr]; exact h12)
      hnext (by omega) hx (by rw [← hn1]; omega) hS
  have hq1 : a1.EventQueue.events.drop a1.EventQueue.pos = [e2, e3] := by
    rw [hev1, hpos1, ← List.tail_drop, hq]; rfl
  have hi1 : nextInterval e1.time self.SamplesPerTick [e2, e3] =
      ((e2.time - e1.time : Nat) : ℚ) * self.SamplesPerTick := by
    have : e2.time ≠ UINT64_MAX := by omega
    simp only [nextInterval, this, ne_eq, not_false_eq_true, if_true]
    rw [sub64_eq _ _ (le_of_lt h12) (by omega)]
  rw [hi1, ← hn1] at hstn1
  have hstn1b : a1.SamplesToNext =
      eventOffset self.SamplesToNext self.SamplesPerTick e1.time e2.time -
        ((eventFrame self.SamplesToNext self.SamplesPerTick e1.time e1.time : Nat) : ℚ) := by
    rw [hstn1]; unfold eventOffset; ring
  have hk2 : eventFrame self.SamplesToNext self.SamplesPerTick e1.time e1.time +
      Int.toNat ⌊a1.SamplesToNext⌋ =
      eventFrame self.SamplesToNext self.SamplesPerTick e1.time e2.time := by
    rw [hstn1b]
    exact floor_toNat_add _ _ (by
      have := (hb e1.time).1
      have h2 := eventOffset_mono self.SamplesToNext self.SamplesPerTick e1.time e1.time
        e2.time hspt (le_of_lt h12)
      linarith)
  rw [← hn1] at hstep1
  simp only [Nat.zero_add] at hstep1
  -- second segment: up to `e2`
  have hx2 : 0 ≤ a1.SamplesToNext := by
    rw [hstn1]
    have h1 := (hb e1.time).1
    rw [hx1] at h1
    have : 0 ≤ ((e2.time - e1.time : Nat) : ℚ) * self.SamplesPerTick :=
      mul_nonneg (Nat.cast_nonneg _) hspt
    linarith
  obtain ⟨a2, hstep2, hev2, hpos2, hspt2, hl2, hnx2, hstn2⟩ :=
    process_segment handled S a1
      (eventFrame self.SamplesToNext self.SamplesPerTick e1.time e1.time)
      (log ++
        renderCalls (eventFrame self.SamplesToNext self.SamplesPerTick e1.time e1.time) 0 ++
        (dispatchEvent (handled self.EventQueue.pos) self.ForceGM2BankSelect e1).2)
      e2 [e3] hq1
      (fun r hr => by simp at hr; rw [← hr]; exact h23)
      hnx1 (by omega) hx2 (by rw [hk2]; omega) hS
  have hK2 : Int.toNat ⌊a1.SamplesToNext⌋ =
      eventFrame self.SamplesToNext self.SamplesPerTick e1.time e2.time -
        eventFrame self.SamplesToNext self.SamplesPerTick e1.time e1.time := by omega
  rw [hk2, hK2, hpos1, hl1] at hstep2
  have hq2 : a2.EventQueue.events.drop a2.EventQueue.pos = [e3] := by
    rw [hev2, hpos2, ← List.tail_drop, hq1]; rfl
  have hi2 : nextInterval e2.time a1.SamplesPerTick [e3] =
      ((e3.time - e2.time : Nat) : ℚ) * self.SamplesPerTick := by
    have : e3.time ≠ UINT64_MAX := by omega
    simp only [nextInterval, this, ne_eq, not_false_eq_true, if_true]
    rw [sub64_eq _ _ (le_of_lt h23) (by omega), hspt1]
  have hK2q : ((Int.toNat ⌊a1.SamplesToNext⌋ : Nat) : ℚ) =
      ((eventFrame self.SamplesToNext self.SamplesPerTick e1.time e2.time : Nat) : ℚ) -
        ((eventFrame self.SamplesToNext self.SamplesPerTick e1.time e1.time : Nat) : ℚ) := by
    rw [hK2]; exact Nat.cast_sub hm12
  have hstn2b : a2.SamplesToNext =
      eventOffset self.SamplesToNext self.SamplesPerTick e1.time e3.time -
        ((eventFrame self.SamplesToNext self.SamplesPerTick e1.time e2.time : Nat) : ℚ) := by
    rw [hstn2, hi2, hK2q, hstn1b]
    unfold eventOffset
    rw [hd2, hd3, hd23]; ring
  have hk3 : eventFrame self.SamplesToNext self.SamplesPerTick e1.time e2.time +
      Int.toNat ⌊a2.SamplesToNext⌋ =
      eventFrame self.SamplesToNext self.SamplesPerTick e1.time e3.time := by
    rw [hstn2b]
    exact floor_toNat_add _ _ (by
      have := (hb e2.time).1
      have h2 := eventOffset_mono self.SamplesToNext self.SamplesPerTick e1.time e2.time
        e3.time hspt (le_of_lt h23)
      linarith)
  have hx3 : 0 ≤ a2.SamplesToNext := by
    rw [hstn2b]
    have := (hb e2.time).1
    have h2 := eventOffset_mono self.SamplesToNext self.SamplesPerTick e1.time e2.time
      e3.time hspt (le_of_lt h23)
    linarith
  -- third segment: up to `e3`
  obtain ⟨a3, hstep3, hev3, hpos3, _, _, hnx3, hstn3⟩ :=
    process_segment handled S a2
      (eventFrame self.SamplesToNext self.SamplesPerTick e1.time e2.time)
      (log ++
        renderCalls (eventFrame self.SamplesToNext self.SamplesPerTick e1.time e1.time) 0 ++
        (dispatchEvent (handled self.EventQueue.pos) self.ForceGM2BankSelect e1).2 ++
        renderCalls
          (eventFrame self.SamplesToNext self.SamplesPerTick e1.time e2.time -
            eventFrame self.SamplesToNext self.SamplesPerTick e1.time e1.time)
          (eventFrame self.SamplesToNext self.SamplesPerTick e1.time e1.time) ++
        (dispatchEvent (handled (self.EventQueue.pos + 1))
          (dispatchEvent (handled self.EventQueue.pos) self.ForceGM2BankSelect e1).1 e2).2)
      e3 [] hq2
      (fun r hr => by simp at hr)
      hnx2 (by omega) hx3 (by rw [hk3]; omega) hS
  have hK3 : Int.toNat ⌊a2.SamplesToNext⌋ =
      eventFrame self.SamplesToNext self.SamplesPerTick e1.time e3.time -
        eventFrame self.SamplesToNext self.SamplesPerTick e1.time e2.time := by omega
  rw [hk3, hK3, hpos2, hl2, hpos1, hl1] at hstep3
  have hK3q : ((Int.toNat ⌊a2.SamplesToNext⌋ : Nat) : ℚ) =
      ((eventFrame self.SamplesToNext self.SamplesPerTick e1.time e3.time : Nat) : ℚ) -
        ((eventFrame self.SamplesToNext self.SamplesPerTick e1.time e2.time : Nat) : ℚ) := by
    rw [hK3]; exact Nat.cast_sub hm23
  have hstn3b : a3.SamplesToNext =
      eventOffset self.SamplesToNext self.SamplesPerTick e1.time e3.time -
        ((eventFrame self.SamplesToNext self.SamplesPerTick e1.time e3.time : Nat) : ℚ) := by
    rw [hstn3, hK3q, hstn2b]
    simp only [nextInterval]; ring
  have hlast : ¬ a3.SamplesToNext ≥ 1 := by
    rw [hstn3b]
    have := (hb e3.time).2
    simp only [ge_iff_le, not_le]; linarith
  -- the rest of the buffer
  have hfin := processLoop_final handled S 0 a3
    (eventFrame self.SamplesToNext self.SamplesPerTick e1.time e3.time)
    (log ++
      renderCalls (eventFrame self.SamplesToNext self.SamplesPerTick e1.time e1.time) 0 ++
      (dispatchEvent (handled self.EventQueue.pos) self.ForceGM2BankSelect e1).2 ++
      renderCalls
        (eventFrame self.SamplesToNext self.SamplesPerTick e1.time e2.time -
          eventFrame self.SamplesToNext self.SamplesPerTick e1.time e1.time)
        (eventFrame self.SamplesToNext self.SamplesPerTick e1.time e1.time) ++
      (dispatchEvent (handled (self.EventQueue.pos + 1))
        (dispatchEvent (handled self.EventQueue.pos) self.ForceGM2BankSelect e1).1 e2).2 ++
      renderCalls
        (eventFrame self.SamplesToNext self.SamplesPerTick e1.time e3.time -
          eventFrame self.SamplesToNext self.SamplesPerTick e1.time e2.time)
        (eventFrame self.SamplesToNext self.SamplesPerTick e1.time e2.time) ++
      (dispatchEvent (handled (self.EventQueue.pos + 1 + 1))
        (dispatchEvent (handled (self.EventQueue.pos + 1))
          (dispatchEvent (handled self.EventQueue.pos) self.ForceGM2BankSelect e1).1
          e2).1 e3).2)
    hin hlast hnx3
  have h7 := hstep1 _ _ (hstep2 _ _ (hstep3 _ _ hfin))
  have hfull := processLoop_mono_le handled S 7 fuel hfuel _ _ _ _ h7
  refine ⟨{ a3 with
      SamplesSinceLast := a3.SamplesSinceLast +
        ((S - eventFrame self.SamplesToNext self.SamplesPerTick e1.time e3.time : Nat) : ℚ) },
    ?_, ?_, ?_, hx1, hb, hm12, hm23, ?_, ?_⟩
  · unfold FSynth_process
    rw [hplay]
    simp only [reduceCtorEq, if_false, ne_eq, not_true_eq_false]
    exact hfull
  · show a3.EventQueue.pos = _
    rw [hpos3, hpos2, hpos1]
  · show a3.EventQueue.events = _
    rw [hev3, hev2, hev1]
  · have b1 := hb e1.time
    have b2 := hb e2.time
    rw [abs_lt]
    unfold eventOffset at b1 b2
    rw [hd2] at b2 ⊢
    simp only [Nat.sub_self, Nat.cast_zero, zero_mul, add_zero] at b1
    constructor <;> linarith [b1.1, b1.2, b2.1, b2.2]
  · have b2 := hb e2.time
    have b3 := hb e3.time
    rw [abs_lt]
    unfold eventOffset at b2 b3
    rw [hd2] at b2
    rw [hd3] at b3
    rw [hd23]
    have e : ((e3.time : ℚ) - (e2.time : ℚ)) * self.SamplesPerTick =
        ((e3.time : ℚ) - (e1.time : ℚ)) * self.SamplesPerTick -
          ((e2.time : ℚ) - (e1.time : ℚ)) * self.SamplesPerTick := by ring
    rw [e]
    constructor <;> linarith [b2.1, b2.2, b3.1, b3.2]

/-- C6, at a concrete state: events stamped 10, 20 and 30, a quarter of a sample per tick,
the first event 2.5 samples away; the exact offsets are 2.5, 5 and 7.5, the buffer has 16
frames. -/
theorem FSynth_process_three_events_witness :
    (FSynth_process (fun _ => false) 7
      (FSynth_Construct (exampleBase ALstate.AL_PLAYING
        [⟨10, 0x90, 60, 100, []⟩, ⟨20, 0x80, 60, 0, []⟩, ⟨30, 0x90, 62, 100, []⟩]
        0 0 10 (5 / 2) (1 / 4)))
      16 []).isSome = true := by
  obtain ⟨after, h, _⟩ := FSynth_process_three_events (fun _ => false) 7
    (FSynth_Construct (exampleBase ALstate.AL_PLAYING
      [⟨10, 0x90, 60, 100, []⟩, ⟨20, 0x80, 60, 0, []⟩, ⟨30, 0x90, 62, 100, []⟩]
      0 0 10 (5 / 2) (1 / 4)))
    16 [] ⟨10, 0x90, 60, 100, []⟩ ⟨20, 0x80, 60, 0, []⟩ ⟨30, 0x90, 62, 100, []⟩
    rfl rfl rfl (by decide) (by decide) (by decide)
    (by norm_num [FSynth_Construct, exampleBase])
    (by norm_num [FSynth_Construct, exampleBase])
    (by norm_num [FSynth_Construct, exampleBase, eventFrame, eventOffset])
    (by norm_num) (le_refl 7)
  rw [h]; rfl

/-- C6 fails as stated.  A playing synthesizer with one sample per tick has three pending
events stamped `2^64 - 3 < 2^64 - 2 < 2^64 - 1`, the first one due now, so that their
sample offsets 0, 1 and 2 all fall inside a call of 16 frames.  The call delivers the
first two events only (the note-on at frame 0, the note-off at frame 1) and leaves the
cursor at 2: the third time stamp equals the sentinel `UINT64_MAX`, which the scheduler
reads as "no event pending", and the rest of the buffer is rendered without it. -/
theorem FSynth_process_sentinel_stamp :
    (FSynth_process (fun _ => false) 7 sentinelExample 16 []).map
        (fun r => (r.1.EventQueue.pos, r.2)) =
      some (2,
        [EngineCall.noteon 0 60 100, EngineCall.write_float 1 0, EngineCall.noteoff 0 60,
          EngineCall.write_float 15 1]) := by
  have hstn0 : sentinelExample.SamplesToNext = 0 := rfl
  have hfl0 : Int.toNat ⌊sentinelExample.SamplesToNext⌋ = 0 := by rw [hstn0]; simp
  obtain ⟨a1, hstep1, hev1, hpos1, hspt1, _, hnx1, hstn1⟩ :=
    process_segment (fun _ => false) 16 sentinelExample 0 []
      ⟨2 ^ 64 - 3, 0x90, 60, 100, []⟩
      [⟨2 ^ 64 - 2, 0x80, 60, 0, []⟩, ⟨2 ^ 64 - 1, 0x90, 62, 100, []⟩]
      rfl (fun r hr => by simp at hr; rw [← hr]; decide) rfl (by decide)
      (by rw [hstn0]) (by rw [hfl0]; decide) (by decide)
  have hq1 : a1.EventQueue.events.drop a1.EventQueue.pos =
      [⟨2 ^ 64 - 2, 0x80, 60, 0, []⟩, ⟨2 ^ 64 - 1, 0x90, 62, 100, []⟩] := by
    rw [hev1, hpos1]; rfl
  have hstn1b : a1.SamplesToNext = 1 := by
    rw [hstn1, hstn0]
    have hs : sub64 (2 ^ 64 - 2) (2 ^ 64 - 3) = 1 := by decide
    have hspt : sentinelExample.SamplesPerTick = 1 := rfl
    have hne : (2 ^ 64 - 2 : Nat) ≠ UINT64_MAX := by decide
    simp only [nextInterval, hne, ne_eq, not_false_eq_true, if_true, hs, hspt]
    norm_num
  have hfl1 : Int.toNat ⌊a1.SamplesToNext⌋ = 1 := by rw [hstn1b]; simp
  obtain ⟨a2, hstep2, hev2, hpos2, _, _, hnx2, hstn2⟩ :=
    process_segment (fun _ => false) 16 a1 (0 + Int.toNat ⌊sentinelExample.SamplesToNext⌋)
      ([] ++ renderCalls (Int.toNat ⌊sentinelExample.SamplesToNext⌋) 0 ++
        (dispatchEvent false sentinelExample.ForceGM2BankSelect
          ⟨2 ^ 64 - 3, 0x90, 60, 100, []⟩).2)
      ⟨2 ^ 64 - 2, 0x80, 60, 0, []⟩ [⟨2 ^ 64 - 1, 0x90, 62, 100, []⟩]
      hq1 (fun r hr => by simp at hr; rw [← hr]; decide) hnx1 (by decide)
      (by rw [hstn1b]; norm_num) (by rw [hfl0, hfl1]; decide) (by decide)
  have hstn2b : ¬ a2.SamplesToNext ≥ 1 := by
    rw [hstn2, hfl1, hstn1b]
    have hmax : (2 ^ 64 - 1 : Nat) = UINT64_MAX := rfl
    simp only [nextInterval, hmax, ne_eq, not_true_eq_false, if_false]
    norm_num
  have hfin := processLoop_final (fun _ => false) 16 0 a2
    (0 + Int.toNat ⌊sentinelExample.SamplesToNext⌋ + Int.toNat ⌊a1.SamplesToNext⌋)
    ([] ++ renderCalls (Int.toNat ⌊sentinelExample.SamplesToNext⌋) 0 ++
        (dispatchEvent false sentinelExample.ForceGM2BankSelect
          ⟨2 ^ 64 - 3, 0x90, 60, 100, []⟩).2 ++
      renderCalls (Int.toNat ⌊a1.SamplesToNext⌋)
        (0 + Int.toNat ⌊sentinelExample.SamplesToNext⌋) ++
      (dispatchEvent false a1.ForceGM2BankSelect ⟨2 ^ 64 - 2, 0x80, 60, 0, []⟩).2)
    (by rw [hfl0, hfl1]; decide) hstn2b hnx2
  have h5 := hstep1 _ _ (hstep2 _ _ hfin)
  have h7 := processLoop_mono_le (fun _ => false) 16 5 7 (by decide) _ _ _ _ h5
  have hproc : FSynth_process (fun _ => false) 7 sentinelExample 16 [] =
      processLoop (fun _ => false) 16 7 sentinelExample 0 [] := rfl
  rw [hproc, h7, hfl0, hfl1]
  simp only [Option.map_some', Option.some.injEq, Prod.mk.injEq]
  refine ⟨?_, ?_⟩
  · show a2.EventQueue.pos = 2
    rw [hpos2, hpos1]; rfl
  · rfl

/-! ### Pitch bend and the controller routing -/

theorem and_0x7F (a : Nat) : a &&& 0x7F = a % 128 := by
  simpa using Nat.and_pow_two_sub_one_eq_mod a 7

theorem and_0x0F (a : Nat) : a &&& 0x0F = a % 16 := by
  simpa using Nat.and_pow_two_sub_one_eq_mod a 4

theorem pitch_value (a b : Nat) :
    (a &&& 0x7F) ||| ((b &&& 0x7F) <<< 7) = a % 128 + 128 * (b % 128) := by
  rw [and_0x7F, and_0x7F, Nat.or_comm, Nat.shiftLeft_eq]
  have hlt : a % 128 < 2 ^ 7 := Nat.mod_lt _ (by norm_num)
  have h := Nat.mul_add_lt_is_or hlt (b % 128)
  have e : b % 128 * 2 ^ 7 = 2 ^ 7 * (b % 128) := Nat.mul_comm _ _
  rw [e, ← h]
  omega

theorem dispatchEvent_pitch_bend (handled latch : Bool) (evt : MidiEvent)
    (hpb : evt.event &&& 0xF0 = AL_PITCHBEND_SOFT) :
    dispatchEvent handled latch evt =
      (latch, [EngineCall.pitch_bend (evt.event &&& 0x0F)
        ((evt.val0 &&& 0x7F) ||| ((evt.val1 &&& 0x7F) <<< 7))]) := by
  have hns : evt.event ≠ SYSEX_EVENT := by
    intro h; rw [h] at hpb; revert hpb; decide
  unfold dispatchEvent
  simp only [hns, if_false, hpb]
  simp [AL_PITCHBEND_SOFT, AL_CONTROLLERCHANGE_SOFT, AL_NOTEOFF_SOFT, AL_NOTEON_SOFT,
    AL_AFTERTOUCH_SOFT, AL_PROGRAMCHANGE_SOFT, AL_CHANNELPRESSURE_SOFT]

/-- C19. A pitch-bend event with payload bytes `b0 = val[0]` and `b1 = val[1]` that
`FSynth_processQueue` finds due at the cursor produces exactly one engine call,
`fluid_synth_pitch_bend` with the channel in the low nibble of the event code and the
value `(b0 mod 128) + 128 * (b1 mod 128)`; the cursor moves on by one, the latch stays and
the loop continues.  The value is at most 16383, and for bytes below 128 it is
`b0 + 128 * b1`. -/
theorem FSynth_processQueue_pitch_bend (handled : Nat → Bool) (self : FSynth)
    (log : List EngineCall) (time : Nat) (evt : MidiEvent)
    (hevt : self.EventQueue.events[self.EventQueue.pos]? = some evt)
    (hdue : evt.time ≤ time)
    (hpb : evt.event &&& 0xF0 = AL_PITCHBEND_SOFT) :
    FSynth_processQueue handled self log time =
      FSynth_processQueue handled
        (self.withCursor self.ForceGM2BankSelect (self.EventQueue.pos + 1))
        (log ++ [EngineCall.pitch_bend (evt.event % 16)
          (evt.val0 % 128 + 128 * (evt.val1 % 128))]) time ∧
    evt.event % 16 = evt.event &&& 0x0F ∧
    evt.val0 % 128 + 128 * (evt.val1 % 128) ≤ 16383 ∧
    (evt.val0 < 128 → evt.val1 < 128 →
      evt.val0 % 128 + 128 * (evt.val1 % 128) = evt.val0 + 128 * evt.val1) := by
  refine ⟨?_, (and_0x0F _).symm, by omega, ?_⟩
  · rw [processQueue_step handled self log time evt hevt hdue,
      dispatchEvent_pitch_bend _ _ _ hpb, pitch_value, and_0x0F]
  · intro h0 h1
    rw [Nat.mod_eq_of_lt h0, Nat.mod_eq_of_lt h1]

/-- C19, at a concrete queue: the pitch-bend event `E3 85 C1` on channel 3, whose bytes
have the top bit set, gives the value `5 + 128 * 65`. -/
theorem FSynth_processQueue_pitch_bend_witness :
    FSynth_processQueue (fun _ => false)
        (FSynth_Construct (exampleBase ALstate.AL_PLAYING
          [⟨0, 0xE3, 0x85, 0xC1, []⟩] 0 0 0 0 1)) [] 0 =
      FSynth_processQueue (fun _ => false)
        ((FSynth_Construct (exampleBase ALstate.AL_PLAYING
          [⟨0, 0xE3, 0x85, 0xC1, []⟩] 0 0 0 0 1)).withCursor false 1)
        [EngineCall.pitch_bend 3 8325] 0 :=
  (FSynth_processQueue_pitch_bend (fun _ => false)
    (FSynth_Construct (exampleBase ALstate.AL_PLAYING
      [⟨0, 0xE3, 0x85, 0xC1, []⟩] 0 0 0 0 1)) [] 0
    ⟨0, 0xE3, 0x85, 0xC1, []⟩ rfl (by decide) (by decide)).1

theorem dispatchEvent_controller (handled latch : Bool) (evt : MidiEvent)
    (hcc : evt.event &&& 0xF0 = AL_CONTROLLERCHANGE_SOFT) :
    dispatchEvent handled latch evt =
      if latch && decide (evt.val0 = CTRL_BANKSELECT_MSB) then
        if evt.val1 = 120 ∧ (evt.event &&& 0x0F = 9 ∨ evt.event &&& 0x0F = 10) then
          (latch, [EngineCall.set_channel_type (evt.event &&& 0x0F)
            ChannelType.CHANNEL_TYPE_DRUM])
        else if evt.val1 = 121 then
          (latch, [EngineCall.set_channel_type (evt.event &&& 0x0F)
            ChannelType.CHANNEL_TYPE_MELODIC])
        else (latch, [])
      else if latch && decide (evt.val0 = CTRL_BANKSELECT_LSB) then
        (latch, [EngineCall.bank_select (evt.event &&& 0x0F) evt.val1])
      else
        (latch, [EngineCall.cc (evt.event &&& 0x0F) evt.val0 evt.val1]) := by
  have hns : evt.event ≠ SYSEX_EVENT := by
    intro h; rw [h] at hcc; revert hcc; decide
  unfold dispatchEvent
  simp only [hns, if_false, hcc]
  simp [AL_CONTROLLERCHANGE_SOFT, AL_NOTEOFF_SOFT, AL_NOTEON_SOFT, AL_AFTERTOUCH_SOFT]

/-- C20. A controller-change event that `FSynth_processQueue` finds due at the cursor
produces exactly one engine call, the cursor moves on by one and the loop continues.
While the GM2 latch is set: controller 0 (bank-select MSB) with value 121, on any channel,
gives `fluid_synth_set_channel_type` with the event's channel and the melodic type, and
controller 32 (bank-select LSB) gives `fluid_synth_bank_select` with the event's channel
and value; neither gives a `fluid_synth_cc` call.  While the latch is clear every
controller, bank-select MSB and LSB included, gives `fluid_synth_cc` with the event's
channel, controller and value. -/
theorem FSynth_processQueue_controller (handled : Nat → Bool) (self : FSynth)
    (log : List EngineCall) (time : Nat) (evt : MidiEvent)
    (hevt : self.EventQueue.events[self.EventQueue.pos]? = some evt)
    (hdue : evt.time ≤ time)
    (hcc : evt.event &&& 0xF0 = AL_CONTROLLERCHANGE_SOFT) :
    (self.ForceGM2BankSelect = true → evt.val0 = CTRL_BANKSELECT_MSB → evt.val1 = 121 →
      FSynth_processQueue handled self log time =
        FSynth_processQueue handled (self.withCursor true (self.EventQueue.pos + 1))
          (log ++ [EngineCall.set_channel_type (evt.event &&& 0x0F)
            ChannelType.CHANNEL_TYPE_MELODIC]) time) ∧
    (self.ForceGM2BankSelect = true → evt.val0 = CTRL_BANKSELECT_LSB →
      FSynth_processQueue handled self log time =
        FSynth_processQueue handled (self.withCursor true (self.EventQueue.pos + 1))
          (log ++ [EngineCall.bank_select (evt.event &&& 0x0F) evt.val1]) time) ∧
    (self.ForceGM2BankSelect = false →
      FSynth_processQueue handled self log time =
        FSynth_processQueue handled (self.withCursor false (self.EventQueue.pos + 1))
          (log ++ [EngineCall.cc (evt.event &&& 0x0F) evt.val0 evt.val1]) time) := by
  refine ⟨?_, ?_, ?_⟩
  · intro hlatch hctrl hval
    rw [processQueue_step handled self log time evt hevt hdue,
      dispatchEvent_controller _ _ _ hcc, hlatch, hctrl, hval]
    simp
  · intro hlatch hctrl
    rw [processQueue_step handled self log time evt hevt hdue,
      dispatchEvent_controller _ _ _ hcc, hlatch, hctrl]
    simp [CTRL_BANKSELECT_LSB, CTRL_BANKSELECT_MSB]
  · intro hlatch
    rw [processQueue_step handled self log time evt hevt hdue,
      dispatchEvent_controller _ _ _ hcc, hlatch]
    simp

/-- C20, at a concrete queue: bank-select LSB 5 on channel 2 with the latch set goes to
the engine's bank-select. -/
theorem FSynth_processQueue_controller_witness :
    FSynth_processQueue (fun _ => false)
        ((FSynth_Construct (exampleBase ALstate.AL_PLAYING
          [⟨0, 0xB2, 32, 5, []⟩] 0 0 0 0 1)).withCursor true 0) [] 0 =
      FSynth_processQueue (fun _ => false)
        ((FSynth_Construct (exampleBase ALstate.AL_PLAYING
          [⟨0, 0xB2, 32, 5, []⟩] 0 0 0 0 1)).withCursor true 1)
        [EngineCall.bank_select 2 5] 0 :=
  (FSynth_processQueue_controller (fun _ => false)
    ((FSynth_Construct (exampleBase ALstate.AL_PLAYING
      [⟨0, 0xB2, 32, 5, []⟩] 0 0 0 0 1)).withCursor true 0) [] 0
    ⟨0, 0xB2, 32, 5, []⟩ rfl (by decide) (by decide)).2.1 rfl rfl

/-- C21. While the GM2 latch is set, a bank-select MSB event (controller 0) that
`FSynth_processQueue` finds due at the cursor never gives a `fluid_synth_cc` call: its
engine calls are none or one `fluid_synth_set_channel_type`.  For every value other than
121, and other than 120 on channel index 9 or 10, no engine call is made for the event,
the cursor still moves on by one and the loop continues. -/
theorem FSynth_processQueue_gm2_msb_dropped (handled : Nat → Bool) (self : FSynth)
    (log : List EngineCall) (time : Nat) (evt : MidiEvent)
    (hevt : self.EventQueue.events[self.EventQueue.pos]? = some evt)
    (hdue : evt.time ≤ time)
    (hcc : evt.event &&& 0xF0 = AL_CONTROLLERCHANGE_SOFT)
    (hctrl : evt.val0 = CTRL_BANKSELECT_MSB)
    (hlatch : self.ForceGM2BankSelect = true) :
    (∀ chan ctrl val, EngineCall.cc chan ctrl val ∉
      (dispatchEvent (handled self.EventQueue.pos) self.ForceGM2BankSelect evt).2) ∧
    FSynth_processQueue handled self log time =
      FSynth_processQueue handled (self.withCursor true (self.EventQueue.pos + 1))
        (log ++ (dispatchEvent (handled self.EventQueue.pos)
          self.ForceGM2BankSelect evt).2) time ∧
    (evt.val1 ≠ 121 →
      ¬ (evt.val1 = 120 ∧ (evt.event &&& 0x0F = 9 ∨ evt.event &&& 0x0F = 10)) →
      FSynth_processQueue handled self log time =
        FSynth_processQueue handled (self.withCursor true (self.EventQueue.pos + 1))
          log time) := by
  have hd := dispatchEvent_controller (handled self.EventQueue.pos)
    self.ForceGM2BankSelect evt hcc
  rw [hlatch, hctrl] at hd
  simp only [Bool.true_and, decide_True, if_true] at hd
  refine ⟨?_, ?_, ?_⟩
  · intro chan ctrl val
    rw [hlatch, hd]
    split_ifs <;> simp
  · rw [processQueue_step handled self log time evt hevt hdue, hlatch, hd]
    split_ifs <;> rfl
  · intro h121 h120
    rw [processQueue_step handled self log time evt hevt hdue, hlatch, hd]
    simp [h121, h120]

/-- C21, at a concrete queue: bank-select MSB with value 120 on channel 0 while the latch
is set makes no engine call. -/
theorem FSynth_processQueue_gm2_msb_dropped_witness :
    FSynth_processQueue (fun _ => false)
        ((FSynth_Construct (exampleBase ALstate.AL_PLAYING
          [⟨0, 0xB0, 0, 120, []⟩] 0 0 0 0 1)).withCursor true 0) [] 0 =
      FSynth_processQueue (fun _ => false)
        ((FSynth_Construct (exampleBase ALstate.AL_PLAYING
          [⟨0, 0xB0, 0, 120, []⟩] 0 0 0 0 1)).withCursor true 1) [] 0 :=
  (FSynth_processQueue_gm2_msb_dropped (fun _ => false)
    ((FSynth_Construct (exampleBase ALstate.AL_PLAYING
      [⟨0, 0xB0, 0, 120, []⟩] 0 0 0 0 1)).withCursor true 0) [] 0
    ⟨0, 0xB0, 0, 120, []⟩ rfl (by decide) (by decide) rfl rfl).2.2 (by decide) (by decide)

/-! ### A note that no zone plays, and rendering while not playing -/

/-- C13. For every preset adapter and every `(key, vel)` that lies in the key and velocity
ranges of none of its zones, `FPreset_noteOn` makes no engine call at all (no voice
allocation request, no generator value, no voice start) and returns `FLUID_OK`. -/
theorem FPreset_noteOn_no_zone (voices : Nat → Option Nat) (self : FPreset)
    (chan key vel : Int) (log : List EngineCall)
    (hnone : ∀ (j : Nat) (z : FSample), self.Samples[j]? = some z →
      inRange z.Sound key vel = false) :
    FPreset_noteOn voices self chan key vel log = (FLUID_OK, log) ∧
    allocRequests (FPreset_noteOn voices self chan key vel []).2 = [] ∧
    voiceStarts (FPreset_noteOn voices self chan key vel []).2 = [] := by
  have hm := matchingZones_none key vel self.Samples 0 hnone
  have h : ∀ l, FPreset_noteOn voices self chan key vel l = (FLUID_OK, l) := by
    intro l
    unfold FPreset_noteOn
    rw [noteOnLoop_granted voices (fun _ => 0) chan key vel self.Samples 0 0 l
      (fun j hj => by rw [hm] at hj; simp at hj)]
    rw [hm]
    simp [servedCalls]
  refine ⟨h log, ?_, ?_⟩
  · rw [h]; rfl
  · rw [h]; rfl

/-- C13, at a concrete preset: key 64 at velocity 0 is below the velocity range 1..127 of
both zones. -/
theorem FPreset_noteOn_no_zone_witness :
    FPreset_noteOn (fun _ => some 7)
        (FPreset_Construct true 0
          { Preset := 5, Bank := 1
            Sounds := [exampleZone 0 59 1 127, exampleZone 60 127 1 127] })
        0 64 0 [] = (FLUID_OK, []) :=
  (FPreset_noteOn_no_zone (fun _ => some 7)
    (FPreset_Construct true 0
      { Preset := 5, Bank := 1
        Sounds := [exampleZone 0 59 1 127, exampleZone 60 127 1 127] })
    0 64 0 []
    (fun j z hz => by
      match j, hz with
      | 0, hz =>
        simp only [FPreset_Construct, if_true, List.map_cons, List.getElem?_cons_zero,
          Option.some.injEq] at hz
        subst hz; decide
      | 1, hz =>
        simp only [FPreset_Construct, if_true, List.map_cons, List.getElem?_cons_succ,
          List.getElem?_cons_zero, Option.some.injEq] at hz
        subst hz; decide
      | j + 2, hz => simp [FPreset_Construct] at hz)).1

/-- C16. For every frame count `SamplesToDo`: in the state `AL_INITIAL` `FSynth_process`
makes no engine call and leaves the object as it was; in every other state that is not
`AL_PLAYING` it makes exactly one engine call, the render request
`fluid_synth_write_float` for `SamplesToDo` frames at offset 0, dispatches no event and
leaves the whole object (queue cursor, `SamplesSinceLast`, `SamplesToNext`, the event
time stamps and the GM2 latch included) as it was. -/
theorem FSynth_process_not_playing (handled : Nat → Bool) (fuel : Nat) (self : FSynth)
    (SamplesToDo : Nat) (log : List EngineCall) :
    (self.State = ALstate.AL_INITIAL →
      FSynth_process handled fuel self SamplesToDo log = some (self, log)) ∧
    (self.State ≠ ALstate.AL_INITIAL → self.State ≠ ALstate.AL_PLAYING →
      FSynth_process handled fuel self SamplesToDo log =
        some (self, log ++ [EngineCall.write_float SamplesToDo 0])) := by
  refine ⟨?_, ?_⟩
  · intro h
    simp [FSynth_process, h]
  · intro h1 h2
    simp [FSynth_process, h1, h2]

/-- C16, at a concrete state: a paused synthesizer with a note-on due renders 256 frames
and dispatches nothing. -/
theorem FSynth_process_not_playing_witness :
    FSynth_process (fun _ => false) 0
        (FSynth_Construct (exampleBase ALstate.AL_PAUSED
          [⟨0, 0x90, 60, 100, []⟩] 0 0 0 0 1)) 256 [] =
      some (FSynth_Construct (exampleBase ALstate.AL_PAUSED
          [⟨0, 0x90, 60, 100, []⟩] 0 0 0 0 1), [EngineCall.write_float 256 0]) :=
  (FSynth_process_not_playing (fun _ => false) 0
    (FSynth_Construct (exampleBase ALstate.AL_PAUSED
      [⟨0, 0x90, 60, 100, []⟩] 0 0 0 0 1)) 256 []).2 (by decide) (by decide)

/-! ### Loading one soundfont file -/

/-- C11. For every registry state, holding the handle list `H`: when the file name is
resolved, the one-entry handle array is allocated and the engine loads the file (its
answer `id` is not `FLUID_FAILED`), `FSynth_loadSoundfont` returns `AL_NO_ERROR`; the
registry afterwards holds exactly the handle `id` (`NumFontIDs = 1`), nothing else of the
object changes, and after the load every handle of `H` is passed to the engine's unload
exactly once, in order; no other engine call is made. -/
theorem FSynth_loadSoundfont_replaces (id : Int) (self : FSynth) (filename : List Char)
    (log : List EngineCall) (H : List Int)
    (hname : filename ≠ []) (hload : id ≠ FLUID_FAILED)
    (hreg : self.FontIDs = H.map some) (hlen : self.NumFontIDs = H.length) :
    FSynth_loadSoundfont id true self filename log =
      some (ALerror.AL_NO_ERROR,
        { self with FontIDs := [some id], NumFontIDs := 1 },
        log ++ [EngineCall.sfload filename 1] ++
          H.map (fun h => EngineCall.sfunload h 1)) := by
  unfold FSynth_loadSoundfont
  simp only [hname, if_false, Bool.not_true, hload, hreg, hlen, unloadFonts_map]
  rfl

/-- C11, at a concrete registry: a file is loaded while the handles 3 and 4 are
resident. -/
theorem FSynth_loadSoundfont_replaces_witness :
    FSynth_loadSoundfont 9 true
        { FSynth_Construct (exampleBase ALstate.AL_INITIAL [] 0 0 0 0 1) with
          FontIDs := [some 3, some 4], NumFontIDs := 2 }
        "a.sf2".toList [] =
      some (ALerror.AL_NO_ERROR,
        { FSynth_Construct (exampleBase ALstate.AL_INITIAL [] 0 0 0 0 1) with
          FontIDs := [some 9], NumFontIDs := 1 },
        [EngineCall.sfload "a.sf2".toList 1, EngineCall.sfunload 3 1,
          EngineCall.sfunload 4 1]) :=
  FSynth_loadSoundfont_replaces 9
    { FSynth_Construct (exampleBase ALstate.AL_INITIAL [] 0 0 0 0 1) with
      FontIDs := [some 3, some 4], NumFontIDs := 2 }
    "a.sf2".toList [] [3, 4] (by decide) (by decide) rfl rfl

/-- C12. For every registry state: when the resolved file name is empty
`FSynth_loadSoundfont` returns `AL_INVALID_VALUE` without any engine call, and when the
engine reports that the load failed it returns `AL_INVALID_VALUE` after that one load
request; in both cases the object, the handle list and its length included, is exactly
what it was and no handle is unloaded.  (When the handle array cannot be allocated the
result is `AL_OUT_OF_MEMORY`, again with the object as it was and no engine call.) -/
theorem FSynth_loadSoundfont_fails (id : Int) (mallocOk : Bool) (self : FSynth)
    (filename : List Char) (log : List EngineCall) :
    (filename = [] →
      FSynth_loadSoundfont id mallocOk self filename log =
        some (ALerror.AL_INVALID_VALUE, self, log)) ∧
    (filename ≠ [] → mallocOk = true → id = FLUID_FAILED →
      FSynth_loadSoundfont id mallocOk self filename log =
        some (ALerror.AL_INVALID_VALUE, self, log ++ [EngineCall.sfload filename 1])) ∧
    (filename ≠ [] → mallocOk = false →
      FSynth_loadSoundfont id mallocOk self filename log =
        some (ALerror.AL_OUT_OF_MEMORY, self, log)) := by
  refine ⟨?_, ?_, ?_⟩
  · intro h
    simp [FSynth_loadSoundfont, h]
  · intro h1 h2 h3
    simp [FSynth_loadSoundfont, h1, h2, h3]
  · intro h1 h2
    simp [FSynth_loadSoundfont, h1, h2]

/-- C12, at a concrete registry: the engine fails to load the file while the handles 3
and 4 are resident. -/
theorem FSynth_loadSoundfont_fails_witness :
    FSynth_loadSoundfont (-1) true
        { FSynth_Construct (exampleBase ALstate.AL_INITIAL [] 0 0 0 0 1) with
          FontIDs := [some 3, some 4], NumFontIDs := 2 }
        "a.sf2".toList [] =
      some (ALerror.AL_INVALID_VALUE,
        { FSynth_Construct (exampleBase ALstate.AL_INITIAL [] 0 0 0 0 1) with
          FontIDs := [some 3, some 4], NumFontIDs := 2 },
        [] ++ [EngineCall.sfload "a.sf2".toList 1]) :=
  (FSynth_loadSoundfont_fails (-1) true
    { FSynth_Construct (exampleBase ALstate.AL_INITIAL [] 0 0 0 0 1) with
      FontIDs := [some 3, some 4], NumFontIDs := 2 }
    "a.sf2".toList []).2.1 (by decide) rfl rfl

/-! ### Looking a preset up -/

theorem toInt32_small (x : Nat) (h : x < 2 ^ 31) : toInt32 x = (x : Int) := by
  unfold toInt32
  have h1 : x % 2 ^ 32 = x := Nat.mod_eq_of_lt (by omega)
  rw [h1, if_pos h]

theorem getPresetLoop_none (bank prenum : Nat) (presets : List FPreset) :
    getPresetLoop bank prenum presets = none ↔
      ∀ p ∈ presets, ¬ (p.Bank = toInt32 bank ∧ p.Preset = toInt32 prenum) := by
  induction presets with
  | nil => simp [getPresetLoop]
  | cons q rest ih =>
    by_cases hq : q.Bank = toInt32 bank ∧ q.Preset = toInt32 prenum
    · simp [getPresetLoop, hq]
    · simp only [getPresetLoop, hq, if_false, ih, List.mem_cons, forall_eq_or_imp,
        not_false_eq_true, true_and]

theorem getPresetLoop_first (bank prenum : Nat) (presets : List FPreset) :
    ∀ (i : Nat) (p : FPreset), presets[i]? = some p →
      (p.Bank = toInt32 bank ∧ p.Preset = toInt32 prenum) →
      (∀ (j : Nat) (q : FPreset), j < i → presets[j]? = some q →
        ¬ (q.Bank = toInt32 bank ∧ q.Preset = toInt32 prenum)) →
      getPresetLoop bank prenum presets = some p.tofluid_preset_t := by
  induction presets with
  | nil => intro i p hp; simp at hp
  | cons q rest ih =>
    intro i p hp hm hfirst
    cases i with
    | zero =>
      simp only [List.getElem?_cons_zero, Option.some.injEq] at hp
      subst hp
      simp [getPresetLoop, hm]
    | succ i =>
      simp only [List.getElem?_cons_succ] at hp
      have hq := hfirst 0 q (by omega) (by simp)
      simp only [getPresetLoop, hq, if_false]
      exact ih i p hp hm (fun j r hj hr => hfirst (j + 1) r (by omega) (by simpa using hr))

/-- C15. For every catalog adapter and every `(bank, prenum)`, `FSfont_getPreset` returns
the first preset, in the order of the `Presets` array, whose `Bank` and `Preset` both
equal the arguments (as the code compares them, cast to `int`; for arguments below `2^31`
the cast changes nothing), and it returns `NULL` exactly when no preset of the adapter has
that pair.  When the `(Bank, Preset)` pairs of the adapter are unique, a preset with that
pair is the one returned and no other index holds a match. -/
theorem FSfont_getPreset_first (self : FSfont) (bank prenum : Nat) :
    (FSfont_getPreset self bank prenum = none ↔
      ∀ p ∈ self.Presets, ¬ (p.Bank = toInt32 bank ∧ p.Preset = toInt32 prenum)) ∧
    (∀ (i : Nat) (p : FPreset), self.Presets[i]? = some p →
      (p.Bank = toInt32 bank ∧ p.Preset = toInt32 prenum) →
      (∀ (j : Nat) (q : FPreset), j < i → self.Presets[j]? = some q →
        ¬ (q.Bank = toInt32 bank ∧ q.Preset = toInt32 prenum)) →
      FSfont_getPreset self bank prenum = some p.tofluid_preset_t) ∧
    ((∀ (i j : Nat) (p q : FPreset), self.Presets[i]? = some p → self.Presets[j]? = some q →
        p.Bank = q.Bank → p.Preset = q.Preset → i = j) →
      ∀ (i : Nat) (p : FPreset), self.Presets[i]? = some p →
        (p.Bank = toInt32 bank ∧ p.Preset = toInt32 prenum) →
        FSfont_getPreset self bank prenum = some p.tofluid_preset_t ∧
        ∀ (j : Nat) (q : FPreset), self.Presets[j]? = some q →
          (q.Bank = toInt32 bank ∧ q.Preset = toInt32 prenum) → j = i) ∧
    (bank < 2 ^ 31 → toInt32 bank = (bank : Int)) ∧
    (prenum < 2 ^ 31 → toInt32 prenum = (prenum : Int)) := by
  refine ⟨getPresetLoop_none bank prenum self.Presets,
    getPresetLoop_first bank prenum self.Presets, ?_, toInt32_small bank,
    toInt32_small prenum⟩
  intro huniq i p hp hm
  have honly : ∀ (j : Nat) (q : FPreset), self.Presets[j]? = some q →
      (q.Bank = toInt32 bank ∧ q.Preset = toInt32 prenum) → j = i := by
    intro j q hq hqm
    exact huniq j i q p hq hp (by rw [hqm.1, hm.1]) (by rw [hqm.2, hm.2])
  refine ⟨getPresetLoop_first bank prenum self.Presets i p hp hm ?_, honly⟩
  intro j q hj hq hqm
  have := honly j q hq hqm
  omega

/-- C15, at a concrete adapter, built from a soundfont whose presets are (bank 0, preset
1), (bank 0, preset 2) and again (bank 0, preset 2): the lookup of (0, 2) returns the
preset at index 1, the first of the two matches. -/
theorem FSfont_getPreset_first_witness :
    FSfont_getPreset
        (FSfont_Construct true (fun _ => true)
          { Presets := [{ Preset := 1, Bank := 0, Sounds := [] },
              { Preset := 2, Bank := 0, Sounds := [] },
              { Preset := 2, Bank := 0, Sounds := [] }] }) 0 2 =
      some { data := 1, isFreeSet := false, isNotifySet := false } :=
  (FSfont_getPreset_first
    (FSfont_Construct true (fun _ => true)
      { Presets := [{ Preset := 1, Bank := 0, Sounds := [] },
          { Preset := 2, Bank := 0, Sounds := [] },
          { Preset := 2, Bank := 0, Sounds := [] }] }) 0 2).2.1 1
    (FPreset_Construct true 1 { Preset := 2, Bank := 0, Sounds := [] }) rfl (by decide)
    (fun j q hj hq => by
      have h0 : j = 0 := by omega
      subst h0
      simp only [FSfont_Construct, if_true, constructPresets, List.getElem?_cons_zero,
        Option.some.injEq] at hq
      subst hq
      decide)

/-! ### Modulators at note-on -/

theorem FSample_Construct_Mods (sound : ALfontsound) : (FSample_Construct sound).Mods = [] :=
  rfl

/-- C14 fails as stated.  The one zone of the preset carries the modulator records 7 and
8 and its ranges contain key 60 at velocity 100; the adapter is built by
`FPreset_Construct` and the engine grants voice 3.  `FPreset_noteOn` requests the voice,
sets the 27 generator values and starts the voice: no `fluid_voice_add_mod` call is made,
since `FSample_Construct` leaves the adapter's modulator array empty (`Mods = NULL`,
`NumMods = 0`). -/
theorem FPreset_noteOn_modulators_dropped :
    FPreset_noteOn (fun _ => some 3)
        (FPreset_Construct true 0 { Preset := 5, Bank := 1, Sounds := [exampleZoneMods] })
        0 60 100 [] =
      (FLUID_OK,
        [EngineCall.alloc_voice 0 0 60 100] ++
          (genValues exampleZoneMods).map (fun g => EngineCall.gen_set 3 g.1 g.2) ++
          [EngineCall.start_voice 3]) ∧
    exampleZoneMods.Modulators = [7, 8] ∧
    (∀ m, EngineCall.add_mod 3 m ∉
      (FPreset_noteOn (fun _ => some 3)
        (FPreset_Construct true 0 { Preset := 5, Bank := 1, Sounds := [exampleZoneMods] })
        0 60 100 []).2) := by
  have h : FPreset_noteOn (fun _ => some 3)
        (FPreset_Construct true 0 { Preset := 5, Bank := 1, Sounds := [exampleZoneMods] })
        0 60 100 [] =
      (FLUID_OK,
        [EngineCall.alloc_voice 0 0 60 100] ++
          (genValues exampleZoneMods).map (fun g => EngineCall.gen_set 3 g.1 g.2) ++
          [EngineCall.start_voice 3]) := by decide
  refine ⟨h, rfl, ?_⟩
  intro m
  rw [h]
  simp [genValues]

/-! ### The bounds of the new handle array -/

theorem selectLoadLoop_within (sfload : Nat → Int) :
    ∀ (n extra i : Nat) (log : List EngineCall),
      selectLoadLoop sfload n i
          ((List.range i).map (fun j => some (sfload j)) ++ List.replicate (n + extra) none)
          log =
        some ((List.range (i + n)).map (fun j => some (sfload j)) ++ List.replicate extra none,
          log ++ (List.range' i n).map (fun j => EngineCall.sfload (internalName j) 1)) := by
  intro n
  induction n with
  | zero => intro extra i log; simp [selectLoadLoop]
  | succ n ih =>
    intro extra i log
    have hlt : i < ((List.range i).map (fun j => some (sfload j)) ++
        List.replicate (n + 1 + extra) (none : Option Int)).length := by simp
    have hset : ((List.range i).map (fun j => some (sfload j)) ++
        List.replicate (n + 1 + extra) (none : Option Int)).set i (some (sfload i)) =
        (List.range (i + 1)).map (fun j => some (sfload j)) ++
          List.replicate (n + extra) none := by
      rw [List.set_append_right _ _ (by simp)]
      have e : n + 1 + extra = (n + extra) + 1 := by omega
      rw [e]
      simp [List.replicate_succ, List.range_succ]
    rw [selectLoadLoop, if_pos hlt, hset, ih extra (i + 1)]
    simp [List.range'_succ, Nat.add_assoc, Nat.add_comm 1]

theorem selectLoadLoop_overrun (sfload : Nat → Int) :
    ∀ (m k i : Nat) (log : List EngineCall),
      selectLoadLoop sfload (m + 1 + k) i
          ((List.range i).map (fun j => some (sfload j)) ++ List.replicate m none) log =
        none := by
  intro m
  induction m with
  | zero =>
    intro k i log
    have e : 0 + 1 + k = k + 1 := by omega
    rw [e, selectLoadLoop, if_neg (by simp)]
  | succ m ih =>
    intro k i log
    have hlt : i < ((List.range i).map (fun j => some (sfload j)) ++
        List.replicate (m + 1) (none : Option Int)).length := by simp
    have hset : ((List.range i).map (fun j => some (sfload j)) ++
        List.replicate (m + 1) (none : Option Int)).set i (some (sfload i)) =
        (List.range (i + 1)).map (fun j => some (sfload j)) ++ List.replicate m none := by
      rw [List.set_append_right _ _ (by simp)]
      simp [List.replicate_succ, List.range_succ]
    have e : m + 1 + 1 + k = (m + 1 + k) + 1 := by omega
    rw [e, selectLoadLoop, if_pos hlt, hset, ih k (i + 1)]


/-- C22. Let the host policy accept a selection of `count` soundfonts, the registry being
well formed, and let `N` be the `NumSoundfonts` the policy leaves, over which the load
loop of `FSynth_selectSoundfonts` runs.  If `N > count` the loop writes `fontid[count]`,
past the end of the array of `count` entries.  If `N ≤ count` every index written is below
`count`, and the list published with length `count` holds the `N` written entries followed
by `count - N` entries that were never written.  When the policy leaves `N = count`, as
the spec has it, every index written is below `count` and each of the `count` published
entries has been written: entry `i` is the engine's answer to load `i`, so that a load the
engine reported as failed is stored as `FLUID_FAILED`. -/
theorem FSynth_selectSoundfonts_bounds
    (policy : MidiSynth → Nat → List Nat → ALerror × MidiSynth) (sfload : Nat → Int)
    (self : FSynth) (count : Nat) (ids : List Nat) (log : List EngineCall) (H : List Int)
    (hacc : (policy self.toMidiSynth count ids).1 = ALerror.AL_NO_ERROR)
    (hreg : self.FontIDs = H.map some) (hlen : self.NumFontIDs = H.length) :
    (count < (policy self.toMidiSynth count ids).2.NumSoundfonts →
      selectLoadLoop sfload (policy self.toMidiSynth count ids).2.NumSoundfonts 0
          (List.replicate count none) log = none ∧
      FSynth_selectSoundfonts policy sfload true self count ids log = none) ∧
    ((policy self.toMidiSynth count ids).2.NumSoundfonts ≤ count →
      ∃ (after : FSynth) (log2 : List EngineCall),
        FSynth_selectSoundfonts policy sfload true self count ids log =
          some (ALerror.AL_NO_ERROR, after, log2) ∧
        after.NumFontIDs = count ∧
        after.FontIDs =
          (List.range (policy self.toMidiSynth count ids).2.NumSoundfonts).map
              (fun i => some (sfload i)) ++
            List.replicate (count - (policy self.toMidiSynth count ids).2.NumSoundfonts)
              none) ∧
    (installsSelection (policy self.toMidiSynth count ids) count = true →
      ∃ (after : FSynth) (log2 : List EngineCall),
        FSynth_selectSoundfonts policy sfload true self count ids log =
          some (ALerror.AL_NO_ERROR, after, log2) ∧
        after.NumFontIDs = count ∧ after.FontIDs.length = count ∧
        (∀ i, i < count → after.FontIDs[i]? = some (some (sfload i))) ∧
        (∀ i, i < count → sfload i = FLUID_FAILED →
          after.FontIDs[i]? = some (some FLUID_FAILED))) := by
  have hun := unloadFonts_map H
  have hsmall : ∀ extra, (policy self.toMidiSynth count ids).2.NumSoundfonts + extra = count →
      FSynth_selectSoundfonts policy sfload true self count ids log =
        some (ALerror.AL_NO_ERROR,
          { self with
            toMidiSynth := (policy self.toMidiSynth count ids).2
            FontIDs :=
              (List.range (policy self.toMidiSynth count ids).2.NumSoundfonts).map
                  (fun i => some (sfload i)) ++ List.replicate extra none
            NumFontIDs := count },
          log ++ (List.range' 0 (policy self.toMidiSynth count ids).2.NumSoundfonts).map
              (fun j => EngineCall.sfload (internalName j) 1) ++
            H.map (fun h => EngineCall.sfunload h 1)) := by
    intro extra he
    have hload := selectLoadLoop_within sfload
      (policy self.toMidiSynth count ids).2.NumSoundfonts extra 0 log
    simp only [List.range_zero, List.map_nil, List.nil_append, Nat.zero_add, he] at hload
    unfold FSynth_selectSoundfonts
    simp only [hacc, ne_eq, not_true_eq_false, if_false, if_true, hload, hreg, hlen, hun]
  refine ⟨?_, ?_, ?_⟩
  · intro hgt
    obtain ⟨k, hk⟩ : ∃ k, (policy self.toMidiSynth count ids).2.NumSoundfonts =
        count + 1 + k :=
      ⟨(policy self.toMidiSynth count ids).2.NumSoundfonts - (count + 1), by omega⟩
    have hover := selectLoadLoop_overrun sfload count k 0 log
    simp only [List.range_zero, List.map_nil, List.nil_append] at hover
    refine ⟨by rw [hk]; exact hover, ?_⟩
    unfold FSynth_selectSoundfonts
    simp only [hacc, ne_eq, not_true_eq_false, if_false, if_true, hk, hover]
  · intro hle
    refine ⟨_, _, hsmall (count - (policy self.toMidiSynth count ids).2.NumSoundfonts)
      (by omega), rfl, rfl⟩
  · intro hinst
    have hnum : (policy self.toMidiSynth count ids).2.NumSoundfonts = count := by
      simpa [installsSelection, hacc] using hinst
    have hentry : ∀ i, i < count →
        ((List.range (policy self.toMidiSynth count ids).2.NumSoundfonts).map
            (fun i => some (sfload i)) ++ List.replicate 0 none)[i]? =
          some (some (sfload i)) := by
      intro i hi
      simp [hnum, hi]
    refine ⟨_, _, hsmall 0 (by omega), rfl, by simp [hnum], hentry, ?_⟩
    intro i hi hfail
    have := hentry i hi
    rw [hfail] at this
    exact this

/-- C22, at a concrete selection: the policy accepts two soundfonts and leaves two in the
catalog, the engine fails the second load; both entries of the published list are written,
the second as `FLUID_FAILED`. -/
theorem FSynth_selectSoundfonts_bounds_witness :
    ∃ (after : FSynth) (log2 : List EngineCall),
      FSynth_selectSoundfonts
          (fun m _ _ => (ALerror.AL_NO_ERROR,
            { m with Soundfonts := [{ Presets := [] }, { Presets := [] }] }))
          (fun i : Nat => if i = 1 then FLUID_FAILED else 10 + (i : Int)) true
          { FSynth_Construct (exampleBase ALstate.AL_INITIAL [] 0 0 0 0 1) with
            FontIDs := [some 3], NumFontIDs := 1 }
          2 [1, 2] [] = some (ALerror.AL_NO_ERROR, after, log2) ∧
      after.NumFontIDs = 2 ∧ after.FontIDs.length = 2 ∧
      (∀ i : Nat, i < 2 → after.FontIDs[i]? =
        some (some ((fun i : Nat => if i = 1 then FLUID_FAILED else 10 + (i : Int)) i))) ∧
      (∀ i : Nat, i < 2 → (fun i : Nat => if i = 1 then FLUID_FAILED else 10 + (i : Int)) i = FLUID_FAILED →
        after.FontIDs[i]? = some (some FLUID_FAILED)) :=
  (FSynth_selectSoundfonts_bounds
    (fun m _ _ => (ALerror.AL_NO_ERROR,
      { m with Soundfonts := [{ Presets := [] }, { Presets := [] }] }))
    (fun i : Nat => if i = 1 then FLUID_FAILED else 10 + (i : Int))
    { FSynth_Construct (exampleBase ALstate.AL_INITIAL [] 0 0 0 0 1) with
      FontIDs := [some 3], NumFontIDs := 1 }
    2 [1, 2] [] [3] rfl rfl rfl).2.2 rfl

/-! ### Termination and coverage of the render loop -/

theorem matchingZones_mem (key vel : Int) (samples : List FSample) :
    ∀ (base : Nat) (z : Nat × FSample), z ∈ matchingZones key vel samples base →
      z.2 ∈ samples := by
  induction samples with
  | nil => intro base z hz; simp [matchingZones] at hz
  | cons s rest ih =>
    intro base z hz
    by_cases hin : inRange s.Sound key vel = true
    · simp only [matchingZones, hin, if_true, List.mem_cons] at hz
      rcases hz with hz | hz
      · subst hz; simp
      · exact List.mem_cons_of_mem _ (ih _ _ hz)
    · simp only [Bool.not_eq_true] at hin
      simp only [matchingZones, hin] at hz
      exact List.mem_cons_of_mem _ (ih _ _ (by simpa using hz))

theorem servedCalls_no_mod (chan key vel : Int) (grant : Nat → Nat)
    (zones : List (Nat × FSample)) (hz : ∀ z ∈ zones, z.2.Mods = []) :
    ∀ (n voice : Nat) (m : fluid_mod_t),
      EngineCall.add_mod voice m ∉ servedCalls chan key vel grant zones n := by
  induction zones with
  | nil => intro n voice m; simp [servedCalls]
  | cons z rest ih =>
    intro n voice m
    have h0 := hz z (by simp)
    have hrest := ih (fun y hy => hz y (List.mem_cons_of_mem _ hy)) (n + 1) voice m
    simp only [servedCalls, voiceSetup, h0, List.map_nil, List.append_nil, List.mem_append,
      List.mem_cons, List.mem_map, List.mem_singleton, not_or]
    simp [hrest]

/-- C14, as the code has it.  For every zone of a preset adapter whose key and velocity
ranges contain `(key, vel)`, `FPreset_noteOn`, given a voice, pushes the modulator
records of the zone's sample adapter (its `Mods` array with `NumMods` entries) into that
voice: one `fluid_voice_add_mod` call per record, in array order, after the 27 generator
values and before the voice is started.  `FSample_Construct` leaves that array empty and
copies no record from the zone, so for a preset adapter built by `FPreset_Construct` no
`fluid_voice_add_mod` call is made. -/
theorem FPreset_noteOn_modulators (voices : Nat → Option Nat) (grant : Nat → Nat)
    (self : FPreset) (chan key vel : Int) (log : List EngineCall)
    (hgrant : ∀ j, j < (matchingZones key vel self.Samples 0).length →
      voices j = some (grant j)) :
    FPreset_noteOn voices self chan key vel log =
      (FLUID_OK,
        log ++ servedCalls chan key vel grant (matchingZones key vel self.Samples 0) 0) ∧
    (∀ (zone : Nat × FSample) (rest : List (Nat × FSample)) (n : Nat),
      servedCalls chan key vel grant (zone :: rest) n =
        [EngineCall.alloc_voice zone.1 chan key vel] ++
          ((genValues zone.2.Sound).map (fun g => EngineCall.gen_set (grant n) g.1 g.2) ++
            zone.2.Mods.map (fun m => EngineCall.add_mod (grant n) m) ++
            [EngineCall.start_voice (grant n)]) ++
          servedCalls chan key vel grant rest (n + 1)) ∧
    (∀ (alloc : Bool) (addr : Nat) (preset : ALsfpreset),
      self = FPreset_Construct alloc addr preset →
      (∀ sample ∈ self.Samples, sample.Mods = []) ∧
      ∀ (voice : Nat) (m : fluid_mod_t), EngineCall.add_mod voice m ∉
        servedCalls chan key vel grant (matchingZones key vel self.Samples 0) 0) := by
  refine ⟨?_, fun _ _ _ => rfl, ?_⟩
  · unfold FPreset_noteOn
    exact noteOnLoop_granted voices grant chan key vel self.Samples 0 0 log
      (fun j hj => by simpa using hgrant j hj)
  · intro alloc addr preset hself
    have hmods : ∀ sample ∈ self.Samples, sample.Mods = [] := by
      intro sample hs
      rw [hself] at hs
      cases alloc with
      | false => simp [FPreset_Construct] at hs
      | true =>
        simp only [FPreset_Construct, if_true, List.mem_map] at hs
        obtain ⟨sound, _, rfl⟩ := hs
        rfl
    refine ⟨hmods, fun voice m => ?_⟩
    exact servedCalls_no_mod chan key vel grant _
      (fun z hz => hmods z.2 (matchingZones_mem key vel self.Samples 0 z hz)) 0 voice m

/-- C14, at a concrete preset: one zone, the engine grants voice 3. -/
theorem FPreset_noteOn_modulators_witness :
    FPreset_noteOn (fun _ => some 3)
        (FPreset_Construct true 0 { Preset := 5, Bank := 1, Sounds := [exampleZoneMods] })
        0 60 100 [] =
      (FLUID_OK,
        [] ++ servedCalls 0 60 100 (fun _ => 3)
          (matchingZones 60 100
            (FPreset_Construct true 0
              { Preset := 5, Bank := 1, Sounds := [exampleZoneMods] }).Samples 0) 0) :=
  (FPreset_noteOn_modulators (fun _ => some 3) (fun _ => 3)
    (FPreset_Construct true 0 { Preset := 5, Bank := 1, Sounds := [exampleZoneMods] })
    0 60 100 [] (fun _ _ => rfl)).1

/-! ### A countdown beyond the chunk count -/

end FluidSynth
